import Mathlib

/-!
Package gologger: a shallow embedding of `pkg/util/logger/logger.go`

The package keeps one process-wide `LogConfiguration` and three `log.Logger`
values (`logError`, `logInfo`, `logDebug`).  The embedding passes that state
explicitly, together with the contents of every sink (standard output, files,
byte buffers) and the status of the process (running, exited, panicked).

Modelling choices:

* Text is a list of Unicode code points (a Go string holding valid UTF-8).
  Byte offsets are computed from the UTF-8 width of each code point, so that
  the byte index of `strings.LastIndex` and the rune index into `[]rune(name)`
  stay distinct, as they are in Go.
* A Go slice has a length and a capacity; a slice expression is checked
  against the capacity.  The capacity of `[]rune(name)` is left to the runtime
  (`Env.runeSlack`).
* The functions of `fmt`, `log`, `os`, `io` and `bytes` the package calls are
  modelled from their documented behaviour; the clock reading and the caller
  reported by `runtime.Caller` are arguments of the emitters.
* A sink holds the bytes it has received.  A write to a buffer succeeds; a
  write to standard output or to an open file succeeds or fails as the
  environment decides (`Env.writeFault`), and a failed write may leave a part
  of the text behind.  A nil `*os.File` fails with an error and a nil
  `*bytes.Buffer` panics.
* A path opened with `os.OpenFile` is resolved by the environment to the file
  it names (`Env.resolve`): two paths of one file are one sink, and a path may
  name the standard output stream itself.
-/

namespace Gologger

/-! ## Text -/

/-- A Go string holding valid UTF-8, as its sequence of code points. -/
abbrev GoString := List Char

/-- Number of bytes of the UTF-8 encoding of a code point (`utf8.RuneLen`). -/
def runeLen (c : Char) : Nat :=
  if c.toNat < 0x80 then 1
  else if c.toNat < 0x800 then 2
  else if c.toNat < 0x10000 then 3
  else 4

/-- Go `len(s)` for a string: its length in bytes. -/
def byteLen : GoString → Nat
  | [] => 0
  | c :: cs => runeLen c + byteLen cs

/-- Whether `t` occurs at the very start of `s`. -/
def startsWith : GoString → GoString → Bool
  | _, [] => true
  | [], _ :: _ => false
  | c :: cs, d :: ds => c == d && startsWith cs ds

/-- Byte offset of the last occurrence of `substr` in `s`, if there is one.
For valid UTF-8 an occurrence always starts at a code point boundary. -/
def lastIndexBytes (substr : GoString) : GoString → Option Nat
  | [] => if substr = [] then some 0 else none
  | c :: cs =>
    match lastIndexBytes substr cs with
    | some i => some (runeLen c + i)
    | none => if startsWith (c :: cs) substr then some 0 else none

/-- Go `strings.LastIndex(s, substr)`: the byte index of the last instance of
`substr` in `s`, or `-1` if `substr` is not present in `s`. -/
def LastIndex (s substr : GoString) : Int :=
  match lastIndexBytes substr s with
  | some i => (i : Int)
  | none => -1

/-- Run-time panics of the Go program that the model can reach. -/
inductive Panic where
  | sliceBounds (lo hi cap : Int)
  | nilDereference
  deriving DecidableEq, Repr

/-- Where a writer's bytes end up: the standard output stream, a file (by
identity, not by path) or a byte buffer. -/
inductive Sink where
  | stdout
  | file (id : Nat)
  | buffer (id : Nat)
  deriving DecidableEq, Repr

/-- What the Go runtime, the build and the operating system fix but the
source does not. -/
structure Env where
  /-- spare capacity the runtime gives the slice made by `[]rune(s)` for a
  string of `n` code points: `cap = n + runeSlack n` (Go only promises
  `len ≤ cap`) -/
  runeSlack : Nat → Nat
  /-- directory the package was compiled in; `runtime.Caller` reports the
  file of the package as `srcRoot ++ "/pkg/util/logger/logger.go"` -/
  srcRoot : GoString
  /-- whether `os.OpenFile` with `O_CREATE|O_WRONLY|O_APPEND` succeeds on a
  non-empty path -/
  canOpen : GoString → Bool
  /-- the file a path names: `some id` for the file with identity `id`,
  `none` when the path names the standard output stream of the process -/
  resolve : GoString → Option Nat
  /-- the outcome of a write of a text to standard output or to a file whose
  received bytes so far are given: `none` when the write succeeds, `some n`
  when it fails after `n` characters of the text -/
  writeFault : Sink → GoString → GoString → Option Nat

/-- A Go `[]rune` value: the visible elements and the capacity of the backing
array, whose cells past the length are zero. -/
structure RuneSlice where
  elems : List Char
  cap : Nat
  deriving DecidableEq, Repr

/-- Go `[]rune(name)`. -/
def toRunes (env : Env) (name : GoString) : RuneSlice :=
  { elems := name, cap := name.length + env.runeSlack name.length }

/-- The backing array of a rune slice up to its capacity. -/
def RuneSlice.backing (a : RuneSlice) : List Char :=
  a.elems ++ List.replicate (a.cap - a.elems.length) (Char.ofNat 0)

/-- Go slice expression `a[lo:hi]` on a slice: panics unless
`0 ≤ lo ≤ hi ≤ cap(a)`. -/
def RuneSlice.slice (a : RuneSlice) (lo hi : Int) : Except Panic RuneSlice :=
  if 0 ≤ lo ∧ lo ≤ hi ∧ hi ≤ (a.cap : Int) then
    .ok { elems := (a.backing.take hi.toNat).drop lo.toNat, cap := a.cap - lo.toNat }
  else
    .error (.sliceBounds lo hi a.cap)

/-- Go `string(a)` for a rune slice of valid code points. -/
def RuneSlice.toGoString (a : RuneSlice) : GoString := a.elems

/-- Source `shortenName` (logger.go:182). -/
def shortenName (env : Env) (name token : GoString) : Except Panic GoString :=
  let index := LastIndex name token
  if index ≠ -1 then
    let a := toRunes env name
    (a.slice (index + 1) (byteLen name)).map RuneSlice.toGoString
  else
    .ok name


/-! ## fmt -/

/-- Decimal digits of a natural number. -/
def decimal (n : Nat) : GoString := Nat.toDigits 10 n

/-- The verb `%d` (and `%v`) of package fmt on an `int`. -/
def fmtInt (i : Int) : GoString :=
  match i with
  | .ofNat n => decimal n
  | .negSucc n => '-' :: decimal (n + 1)

/-- The dynamic values passed to the emitters (a fragment of `interface{}`:
strings, ints, booleans and the nil interface). -/
inductive Value where
  | str (s : GoString)
  | int (i : Int)
  | bool (b : Bool)
  | nil
  deriving DecidableEq, Repr

/-- The verb `%v` on one value. -/
def Value.format : Value → GoString
  | .str s => s
  | .int i => fmtInt i
  | .bool true => "true".toList
  | .bool false => "false".toList
  | .nil => "<nil>".toList

/-- The loop shared by `doPrintln` and by `%v` on a slice: every element but
the first is preceded by one space (`if argNum > 0 { writeByte(' ') }`). -/
def writeSpaced (argNum : Nat) : List GoString → GoString
  | [] => []
  | x :: xs => (if argNum > 0 then [' '] else []) ++ x ++ writeSpaced (argNum + 1) xs

/-- The verb `%v` on a `[]interface{}`: the elements between square brackets. -/
def formatSlice (vs : List Value) : GoString :=
  '[' :: writeSpaced 0 (vs.map Value.format) ++ [']']

/-- One operand of a print call in logger.go: a single value, or the whole
variadic slice `v` passed as one operand. -/
inductive Operand where
  | value (v : Value)
  | values (vs : List Value)
  deriving DecidableEq, Repr

/-- The verb `%v` on an operand. -/
def Operand.format : Operand → GoString
  | .value v => v.format
  | .values vs => formatSlice vs

/-- Go `fmt.Sprintln(a...)`: operands in default format, always separated by
a space, with a newline appended. -/
def Sprintln (a : List Operand) : GoString :=
  writeSpaced 0 (a.map Operand.format) ++ ['\n']

/-- Go `fmt.Sprintf("at %s[%s:%d]", fn, file, line)` on two strings and an int
(logger.go:164). -/
def sprintfAt (fn file : GoString) (line : Int) : GoString :=
  "at ".toList ++ fn ++ "[".toList ++ file ++ ":".toList ++ fmtInt line ++ "]".toList

/-- Go `fmt.Sprintf("at %s[%s:%d] %v", fn, file, line, v)` on two strings, an
int and the variadic slice (logger.go:158). -/
def sprintfAtV (fn file : GoString) (line : Int) (v : List Value) : GoString :=
  "at ".toList ++ fn ++ "[".toList ++ file ++ ":".toList ++ fmtInt line ++ "] ".toList
    ++ formatSlice v

/-- Go `errors.Errorf("Unsupported log level %d", level)`: the message. -/
def errorfUnsupported (level : Int) : GoString :=
  "Unsupported log level ".toList ++ fmtInt level

/-! ## The standard log package -/

def Ldate : Int := 1
def Ltime : Int := 2
def Lmicroseconds : Int := 4
def Llongfile : Int := 8
def Lshortfile : Int := 16
def LUTC : Int := 32
def Lmsgprefix : Int := 64

/-- The Go test `flag&bits != 0` on the flags of a logger. -/
def hasFlag (flag bits : Int) : Bool := Int.land flag bits != 0

/-- A wall-clock reading. -/
structure Clock where
  year : Nat
  month : Nat
  day : Nat
  hour : Nat
  min : Nat
  sec : Nat
  micro : Nat
  deriving DecidableEq, Repr

/-- The value of `time.Now()`: the reading in the local zone and in UTC. -/
structure Time where
  loc : Clock
  utc : Clock
  deriving DecidableEq, Repr

/-- The loop of `log.itoa`: digits are produced from the right while
`i >= 10 || wid > 1`. -/
def itoaLoop : Nat → Nat → Int → GoString → GoString
  | 0, i, _, acc => Nat.digitChar (i % 10) :: acc
  | fuel + 1, i, wid, acc =>
    if i ≥ 10 ∨ wid > 1 then
      itoaLoop fuel (i / 10) (wid - 1) (Nat.digitChar (i % 10) :: acc)
    else
      Nat.digitChar i :: acc

/-- Go `log.itoa`: fixed-width decimal, zero padded; a negative width avoids
the padding.  The source assembles the digits in a 20 byte array. -/
def itoa (i : Nat) (wid : Int) : GoString := itoaLoop 20 i wid []

/-- The date and time part of `formatHeader`. -/
def stamp (flag : Int) (now : Time) : GoString :=
  if hasFlag flag (Int.lor Ldate (Int.lor Ltime Lmicroseconds)) then
    let t := if hasFlag flag LUTC then now.utc else now.loc
    (if hasFlag flag Ldate then
      itoa t.year 4 ++ ['/'] ++ itoa t.month 2 ++ ['/'] ++ itoa t.day 2 ++ [' ']
    else []) ++
    (if hasFlag flag (Int.lor Ltime Lmicroseconds) then
      itoa t.hour 2 ++ [':'] ++ itoa t.min 2 ++ [':'] ++ itoa t.sec 2 ++
        (if hasFlag flag Lmicroseconds then '.' :: itoa t.micro 6 else []) ++ [' ']
    else [])
  else []

/-- Text after the last slash of `s` (all of `s` when it has none). -/
def afterLastSlash : GoString → GoString
  | [] => []
  | c :: cs =>
    if cs.contains '/' then afterLastSlash cs
    else if c == '/' then cs
    else c :: cs

/-- The loop of `formatHeader` for `Lshortfile`: the text after the last slash
found at an index greater than zero, or the whole name. -/
def shortFile : GoString → GoString
  | [] => []
  | c :: cs => if cs.contains '/' then afterLastSlash cs else c :: cs

/-- The file and line part of `formatHeader`. -/
def fileText (flag : Int) (file : GoString) (line : Nat) : GoString :=
  if hasFlag flag (Int.lor Lshortfile Llongfile) then
    (if hasFlag flag Lshortfile then shortFile file else file) ++ [':'] ++ itoa line (-1)
      ++ ": ".toList
  else []

/-- The bytes every sink has received so far. -/
abbrev World := Sink → GoString

/-- Append text to one sink. -/
def World.append (w : World) (k : Sink) (p : GoString) : World :=
  fun j => if j = k then w j ++ p else w j

/-- An open `*os.File` (not nil): the path it was opened with and the file it
is open on, `none` standing for the standard output stream. -/
structure File where
  name : GoString
  id : Option Nat
  deriving DecidableEq, Repr

/-- The sink the writes to an open file go to. -/
def File.sink (f : File) : Sink :=
  match f.id with
  | some id => .file id
  | none => .stdout

/-- The `io.Writer` values `getWriter` can return.  A `none` is the nil
pointer of type `*os.File` or `*bytes.Buffer`. -/
inductive Writer where
  | stdout
  | file (f : Option File)
  | multi (a b : Writer)
  | buffer (b : Option Nat)
  | discard
  deriving DecidableEq, Repr

/-- How a `Write` call ended. -/
inductive WriteStatus where
  | done
  | failed
  | panicked (p : Panic)
  deriving DecidableEq, Repr

/-- One write of the text `p` to the sink `k`.  A buffer takes it all; for
standard output and for a file the environment decides: the write succeeds,
or it fails with an error after a part of the text. -/
def receive (env : Env) (k : Sink) (p : GoString) (w : World) : World × WriteStatus :=
  match k with
  | .buffer _ => (w.append k p, .done)
  | _ =>
    match env.writeFault k (w k) p with
    | none => (w.append k p, .done)
    | some n => (w.append k (p.take n), .failed)

/-- The method `Write` of each writer.  A nil `*os.File` returns `ErrInvalid`;
a nil `*bytes.Buffer` is dereferenced and panics; `io.MultiWriter` writes to
its writers in order and stops at the first one that fails. -/
def Writer.Write (env : Env) : Writer → GoString → World → World × WriteStatus
  | .stdout, p, w => receive env .stdout p w
  | .file (some f), p, w => receive env f.sink p w
  | .file none, _, w => (w, .failed)
  | .buffer (some b), p, w => receive env (.buffer b) p w
  | .buffer none, _, w => (w, .panicked .nilDereference)
  | .discard, _, w => (w, .done)
  | .multi a b, p, w =>
    match a.Write env p w with
    | (w1, .done) => b.Write env p w1
    | r => r

/-- A `log.Logger`: its tag (the field the log package calls the prefix), its
flags and its output. -/
structure Logger where
  tag : GoString
  flag : Int
  out : Writer
  deriving DecidableEq, Repr

/-- The header `formatHeader` builds from the prefix `tag` and the flags. -/
def formatHeader (tag : GoString) (flag : Int) (now : Time) (file : GoString) (line : Nat) :
    GoString :=
  (if hasFlag flag Lmsgprefix then [] else tag) ++
  stamp flag now ++
  fileText flag file line ++
  (if hasFlag flag Lmsgprefix then tag else [])

/-- Go `(*Logger).formatHeader`. -/
def Logger.formatHeader (l : Logger) (now : Time) (file : GoString) (line : Nat) : GoString :=
  Gologger.formatHeader l.tag l.flag now file line

/-- The bytes `(*Logger).Output` hands to the writer: header, text, and a
newline unless the text already ends in one. -/
def Logger.record (l : Logger) (now : Time) (file : GoString) (line : Nat) (s : GoString) :
    GoString :=
  l.formatHeader now file line ++ s ++ (if s.getLast? = some '\n' then [] else ['\n'])

/-- Go `(*Logger).Output(2, s)`; `file` and `line` are what `runtime.Caller(2)`
reports, the place in logger.go that called the log package. -/
def Logger.Output (l : Logger) (env : Env) (now : Time) (file : GoString) (line : Nat)
    (s : GoString) (w : World) : World × WriteStatus :=
  l.out.Write env (l.record now file line s) w


/-- Go `(*Logger).Println(a...)` called at line `line` of logger.go. -/
def Logger.Println (l : Logger) (env : Env) (now : Time) (file : GoString) (line : Nat)
    (a : List Operand) (w : World) : World × WriteStatus :=
  l.Output env now file line (Sprintln a) w

/-! ## logger.go -/

def OutputConsole : Int := 1
def OutputFile : Int := 2
def OutputConsoleAndFile : Int := 3
def OutputBuffer : Int := 4

def LevelFatal : Int := 0
def LevelError : Int := 1
def LevelInfo : Int := 2
def LevelDebug : Int := 3

/-- Source `LogConfiguration` (logger.go:34); `none` is a nil pointer. -/
structure LogConfiguration where
  flags : Int
  output : Int
  file : Option File
  level : Int
  buff : Option Nat
  deriving DecidableEq, Repr

/-- Whether the process is still running. -/
inductive Status where
  | running
  | exited (code : Int)
  | panicked (p : Panic)
  deriving DecidableEq, Repr

/-- The package variables `logConfig`, `logError`, `logInfo`, `logDebug`,
the sinks, and the state of the process. -/
structure State where
  logConfig : LogConfiguration
  logError : Logger
  logInfo : Logger
  logDebug : Logger
  world : World
  status : Status

/-- Source `getDefaultConfiguration` (logger.go:52). -/
def getDefaultConfiguration : LogConfiguration :=
  { flags := Int.lor Ldate Ltime
    output := OutputConsole
    file := none
    level := LevelDebug
    buff := none }

/-- Source `getWriter` (logger.go:60). -/
def getWriter (logConfig : LogConfiguration) : Writer :=
  if logConfig.output = OutputConsole then .stdout
  else if logConfig.output = OutputFile then .file logConfig.file
  else if logConfig.output = OutputConsoleAndFile then .multi (.file logConfig.file) .stdout
  else if logConfig.output = OutputBuffer then .buffer logConfig.buff
  else .discard

/-- Source `init` (logger.go:44), in a process whose sinks hold `world`. -/
def init (world : World) : State :=
  let logConfig := getDefaultConfiguration
  { logConfig := logConfig
    logError := { tag := "[ERROR]".toList, flag := logConfig.flags, out := getWriter logConfig }
    logInfo := { tag := "[INFO]".toList, flag := logConfig.flags, out := getWriter logConfig }
    logDebug := { tag := "[DEBUG]".toList, flag := logConfig.flags, out := getWriter logConfig }
    world := world
    status := .running }

/-- Source `updateLoggerConfig` (logger.go:81). -/
def updateLoggerConfig (s : State) : State :=
  { s with
    logError := { s.logError with flag := s.logConfig.flags, out := getWriter s.logConfig }
    logInfo := { s.logInfo with flag := s.logConfig.flags, out := getWriter s.logConfig }
    logDebug := { s.logDebug with flag := s.logConfig.flags, out := getWriter s.logConfig } }

/-- Source `SetFlags` (logger.go:95). -/
def SetFlags (flags : Int) (s : State) : State :=
  updateLoggerConfig { s with logConfig := { s.logConfig with flags := flags } }

/-- Source `SetOutputConsole` (logger.go:101). -/
def SetOutputConsole (s : State) : State :=
  updateLoggerConfig { s with logConfig := { s.logConfig with output := OutputConsole } }

/-- The Go `error` values the package returns. -/
inductive GoError where
  | errorf (msg : GoString)
  | pathError (op path : GoString)
  deriving DecidableEq, Repr

/-- Go `os.OpenFile(name, os.O_CREATE|os.O_WRONLY|os.O_APPEND, 0666)`: the
empty path never opens; any other path opens when the environment allows. -/
def OpenFile (env : Env) (name : GoString) : Except GoError File :=
  if name = [] then .error (.pathError "open".toList name)
  else if env.canOpen name then .ok { name := name, id := env.resolve name }
  else .error (.pathError "open".toList name)

/-- Source `SetOutputFile` (logger.go:110); `none` is a nil error. -/
def SetOutputFile (env : Env) (fileName : GoString) (s : State) : Option GoError × State :=
  match OpenFile env fileName with
  | .error err => (some err, s)
  | .ok file =>
    (none, updateLoggerConfig
      { s with logConfig := { s.logConfig with file := some file, output := OutputFile } })

/-- Source `SetOutputConsoleAndFile` (logger.go:126). -/
def SetOutputConsoleAndFile (env : Env) (fileName : GoString) (s : State) :
    Option GoError × State :=
  match OpenFile env fileName with
  | .error err => (some err, s)
  | .ok file =>
    (none, updateLoggerConfig
      { s with logConfig := { s.logConfig with file := some file, output := OutputConsoleAndFile } })

/-- Source `SetOutputBuffer` (logger.go:140); the argument may be nil. -/
def SetOutputBuffer (bytes : Option Nat) (s : State) : State :=
  updateLoggerConfig
    { s with logConfig := { s.logConfig with output := OutputBuffer, buff := bytes } }

/-- Source `SetLogLevel` (logger.go:147). -/
def SetLogLevel (level : Int) (s : State) : Option GoError × State :=
  if level ≠ LevelFatal ∧ level ≠ LevelError ∧ level ≠ LevelInfo ∧ level ≠ LevelDebug then
    (some (.errorf (errorfUnsupported level)), s)
  else
    (none, { s with logConfig := { s.logConfig with level := level } })

/-- What `runtime.Caller(1)` and `runtime.FuncForPC(pc).Name()` report about
the caller of an emitter. -/
structure CallSite where
  funcName : GoString
  file : GoString
  line : Int
  deriving DecidableEq, Repr

/-- The file `runtime.Caller` reports for code of logger.go. -/
def loggerFile (env : Env) : GoString :=
  env.srcRoot ++ "/pkg/util/logger/logger.go".toList

/-- The state after a write through a logger: the sinks as the write left
them; a panic of the writer is not recovered. -/
def State.afterWrite (s : State) (r : World × WriteStatus) : State :=
  match r.2 with
  | .panicked p => { s with world := r.1, status := .panicked p }
  | _ => { s with world := r.1 }

/-- Source `Fatal` (logger.go:156): `logError.Fatalf` is `Output` followed by
`os.Exit(1)`. -/
def Fatal (env : Env) (site : CallSite) (now : Time) (v : List Value) (s : State) : State :=
  match shortenName env site.funcName ".".toList with
  | .error p => { s with status := .panicked p }
  | .ok fn =>
    match shortenName env site.file "/".toList with
    | .error p => { s with status := .panicked p }
    | .ok file =>
      let s1 := s.afterWrite
        (s.logError.Output env now (loggerFile env) 158 (sprintfAtV fn file site.line v) s.world)
      match s1.status with
      | .running => { s1 with status := .exited 1 }
      | _ => s1

/-- Source `Error` (logger.go:161). -/
def Error (env : Env) (site : CallSite) (now : Time) (v : List Value) (s : State) : State :=
  if s.logConfig.level ≥ LevelError then
    match shortenName env site.funcName ".".toList with
    | .error p => { s with status := .panicked p }
    | .ok fn =>
      match shortenName env site.file "/".toList with
      | .error p => { s with status := .panicked p }
      | .ok file =>
        let pfx := sprintfAt fn file site.line
        s.afterWrite
          (s.logError.Println env now (loggerFile env) 166 [.value (.str pfx), .values v] s.world)
  else s

/-- Source `Info` (logger.go:170). -/
def Info (env : Env) (now : Time) (v : List Value) (s : State) : State :=
  if s.logConfig.level ≥ LevelInfo then
    s.afterWrite (s.logInfo.Println env now (loggerFile env) 172 (v.map Operand.value) s.world)
  else s

/-- Source `Debug` (logger.go:176). -/
def Debug (env : Env) (now : Time) (v : List Value) (s : State) : State :=
  if s.logConfig.level ≥ LevelDebug then
    s.afterWrite (s.logDebug.Println env now (loggerFile env) 178 (v.map Operand.value) s.world)
  else s

/-- A call of an exported function of the package. -/
inductive Call where
  | SetFlags (flags : Int)
  | SetOutputConsole
  | SetOutputFile (fileName : GoString)
  | SetOutputConsoleAndFile (fileName : GoString)
  | SetOutputBuffer (bytes : Option Nat)
  | SetLogLevel (level : Int)
  | Fatal (site : CallSite) (now : Time) (v : List Value)
  | Error (site : CallSite) (now : Time) (v : List Value)
  | Info (now : Time) (v : List Value)
  | Debug (now : Time) (v : List Value)
  deriving DecidableEq, Repr

/-- Whether the call is one of the six configuration setters. -/
def Call.isSetter : Call → Bool
  | .SetFlags _ | .SetOutputConsole | .SetOutputFile _ | .SetOutputConsoleAndFile _
  | .SetOutputBuffer _ | .SetLogLevel _ => true
  | _ => false

/-- Whether the call is one of the four emitters. -/
def Call.isEmitter (c : Call) : Bool := !c.isSetter

/-- One call made by the program; a process that exited or panicked makes no
further call. -/
def exec (env : Env) (s : State) (c : Call) : State :=
  match s.status with
  | .running =>
    match c with
    | .SetFlags flags => SetFlags flags s
    | .SetOutputConsole => SetOutputConsole s
    | .SetOutputFile fileName => (SetOutputFile env fileName s).2
    | .SetOutputConsoleAndFile fileName => (SetOutputConsoleAndFile env fileName s).2
    | .SetOutputBuffer bytes => SetOutputBuffer bytes s
    | .SetLogLevel level => (SetLogLevel level s).2
    | .Fatal site now v => Fatal env site now v s
    | .Error site now v => Error env site now v s
    | .Info now v => Info env now v s
    | .Debug now v => Debug env now v s
  | _ => s

/-- A sequence of calls, in order. -/
def run (env : Env) (s : State) (calls : List Call) : State :=
  calls.foldl (exec env) s

/-- States the program can be in: those a sequence of calls leads to from
package initialisation. -/
def Reachable (env : Env) (s : State) : Prop :=
  ∃ (w : World) (calls : List Call), s = run env (init w) calls

/-! ## Vocabulary of the statements -/

/-- The sinks a writer passes its bytes to; a nil pointer has none. -/
def Writer.sinks : Writer → List Sink
  | .stdout => [.stdout]
  | .file (some f) => [f.sink]
  | .file none => []
  | .multi a b => a.sinks ++ b.sinks
  | .buffer (some b) => [.buffer b]
  | .buffer none => []
  | .discard => []

/-- No nil pointer inside the writer. -/
def Writer.present : Writer → Bool
  | .file none => false
  | .buffer none => false
  | .multi a b => a.present && b.present
  | _ => true

/-- The configured destination: the sinks of the writer `getWriter` selects. -/
def destination (s : State) : List Sink := (getWriter s.logConfig).sinks

/-- World `w2` is `w1` with the text `p` appended once to each sink of `ks`
and every other sink untouched. -/
def AppendedTo (ks : List Sink) (p : GoString) (w1 w2 : World) : Prop :=
  ∀ k, w2 k = if k ∈ ks then w1 k ++ p else w1 k

/-- Texts joined by single spaces. -/
def joinSpaces : List GoString → GoString
  | [] => []
  | [x] => x
  | x :: y :: rest => x ++ ' ' :: joinSpaces (y :: rest)

/-- The sinks each destination mode stands for: standard output for Console,
the opened file for File, the file and standard output for ConsoleAndFile,
the buffer for Buffer. -/
def modeSinks (c : LogConfiguration) : List Sink :=
  if c.output = OutputConsole then [.stdout]
  else if c.output = OutputFile then (c.file.map File.sink).toList
  else if c.output = OutputConsoleAndFile then (c.file.map File.sink).toList ++ [.stdout]
  else if c.output = OutputBuffer then (c.buff.map Sink.buffer).toList
  else []

/-- Every write to the sink succeeds (a buffer always takes a write). -/
def Sink.Accepts (env : Env) : Sink → Prop
  | .buffer _ => True
  | k => ∀ cur p, env.writeFault k cur p = none

/-- The destination can take a record: in Buffer mode the buffer is not nil,
every write to a sink of the destination succeeds, and in ConsoleAndFile mode
the file is not the standard output stream itself. -/
structure Usable (env : Env) (s : State) : Prop where
  buffer : s.logConfig.output = OutputBuffer → s.logConfig.buff ≠ none
  accepts : ∀ k ∈ modeSinks s.logConfig, k.Accepts env
  apart : s.logConfig.output = OutputConsoleAndFile →
    ∀ f, s.logConfig.file = some f → f.sink ≠ .stdout

/-- The text is exactly one line: it holds one newline, its last character. -/
def OneLine (p : GoString) : Prop :=
  p.getLast? = some '\n' ∧ p.count '\n' = 1

/-- None of the texts contains a newline. -/
def NewlineFree (ps : List GoString) : Prop := ∀ p ∈ ps, '\n' ∉ p

/-- Going from `s` to `s1` appended the text `p` once to every sink of the
destination mode, changed no other sink and left the process status as it
was. -/
def Emits (s s1 : State) (p : GoString) : Prop :=
  s1.status = s.status ∧ AppendedTo (modeSinks s.logConfig) p s.world s1.world

/-- The text of a record of `Info` and `Debug`: the values in default format
joined by single spaces. -/
def valuesBody (v : List Value) : GoString := joinSpaces (v.map Value.format)

/-- The text of a record of `Error` and `Fatal`: the call site followed by
the values between square brackets. -/
def siteBody (fn file : GoString) (line : Int) (v : List Value) : GoString :=
  "at ".toList ++ fn ++ "[".toList ++ file ++ ":".toList ++ (toString line).toList
    ++ "] [".toList ++ joinSpaces (v.map Value.format) ++ "]".toList

/-- A record: the header for the tag and the flags, naming line `line` of
logger.go when the flags ask for a file, then the body and a newline. -/
def recordText (env : Env) (tag : GoString) (flag : Int) (now : Time) (line : Nat)
    (body : GoString) : GoString :=
  formatHeader tag flag now (env.srcRoot ++ "/pkg/util/logger/logger.go".toList) line
    ++ body ++ ['\n']

/-- Both names of the call site are ones on which `shortenName` returns. -/
def SiteReturns (env : Env) (site : CallSite) (fn file : GoString) : Prop :=
  shortenName env site.funcName ".".toList = .ok fn ∧
  shortenName env site.file "/".toList = .ok file

/-- The flags ask for neither `Lshortfile` nor `Llongfile`. -/
def NoFileFlags (flag : Int) : Prop := hasFlag flag (Int.lor Lshortfile Llongfile) = false

/-- The flags are made of the time stamp bits only (`Ldate`, `Ltime`,
`Lmicroseconds`, `LUTC`). -/
def StampFlagsOnly (flag : Int) : Prop :=
  hasFlag flag (Int.lor Lshortfile Llongfile) = false ∧ hasFlag flag Lmsgprefix = false

/-- The date text of the header: `2006/01/02`. -/
def dateText (t : Clock) : GoString :=
  itoa t.year 4 ++ ['/'] ++ itoa t.month 2 ++ ['/'] ++ itoa t.day 2

/-- The time text of the header: `15:04:05`. -/
def timeText (t : Clock) : GoString :=
  itoa t.hour 2 ++ [':'] ++ itoa t.min 2 ++ [':'] ++ itoa t.sec 2

/-- What holds of the package variables after `init` and after every call. -/
structure Inv (s : State) : Prop where
  errorOut : s.logError.out = getWriter s.logConfig
  infoOut : s.logInfo.out = getWriter s.logConfig
  debugOut : s.logDebug.out = getWriter s.logConfig
  errorFlag : s.logError.flag = s.logConfig.flags
  infoFlag : s.logInfo.flag = s.logConfig.flags
  debugFlag : s.logDebug.flag = s.logConfig.flags
  errorTag : s.logError.tag = "[ERROR]".toList
  infoTag : s.logInfo.tag = "[INFO]".toList
  debugTag : s.logDebug.tag = "[DEBUG]".toList
  mode : s.logConfig.output = OutputConsole ∨ s.logConfig.output = OutputFile ∨
    s.logConfig.output = OutputConsoleAndFile ∨ s.logConfig.output = OutputBuffer
  fileOpen : s.logConfig.output = OutputFile ∨ s.logConfig.output = OutputConsoleAndFile →
    s.logConfig.file ≠ none
  level : s.logConfig.level = LevelFatal ∨ s.logConfig.level = LevelError ∨
    s.logConfig.level = LevelInfo ∨ s.logConfig.level = LevelDebug

/-- A world whose sinks are all empty. -/
def emptyWorld : World := fun _ => []

/-- A sample environment: slices get no spare capacity, every non-empty path
opens, `/dev/stdout` names the standard output stream and any other path the
file numbered by its length, and every write succeeds. -/
def sampleEnv : Env :=
  { runeSlack := fun _ => 0
    srcRoot := "/go/src/gologger".toList
    canOpen := fun _ => true
    resolve := fun name => if name = "/dev/stdout".toList then none else some name.length
    writeFault := fun _ _ _ => none }

/-- The sample environment with a full disk: every write to a file fails
before its first character (as on `/dev/full`); standard output is fine. -/
def fullEnv : Env :=
  { sampleEnv with
    writeFault := fun k _ _ => match k with
      | .file _ => some 0
      | _ => none }

/-- A sample clock reading. -/
def sampleTime : Time :=
  { loc := { year := 2024, month := 3, day := 7, hour := 9, min := 5, sec := 1, micro := 42 }
    utc := { year := 2024, month := 3, day := 7, hour := 8, min := 5, sec := 1, micro := 42 } }

/-- A sample call site. -/
def sampleSite : CallSite :=
  { funcName := "main.main".toList, file := "/go/src/app/main.go".toList, line := 12 }

/-- A call site in a file whose path holds 40 characters in 41 bytes. -/
def longSite : CallSite :=
  { funcName := "main.main".toList
    file := "/home/jos".toList ++ [Char.ofNat 0xe9] ++ "/go/src/example.com/cmd/x/a.go".toList
    line := 12 }

/-- The freshly initialised package after `SetFlags(log.Lshortfile)`. -/
def shortfileState : State := SetFlags Lshortfile (init emptyWorld)

/-- Buffer `b` is stale: it is a sink of none of the three loggers nor of the
writer the configuration selects. -/
def Stale (b : Nat) (s : State) : Prop :=
  Sink.buffer b ∉ s.logError.out.sinks ∧ Sink.buffer b ∉ s.logInfo.out.sinks ∧
  Sink.buffer b ∉ s.logDebug.out.sinks ∧ Sink.buffer b ∉ (getWriter s.logConfig).sinks

/-- The name `é.x`: a two byte character before the only dot. -/
def accentName : GoString := [Char.ofNat 0xe9, '.', 'x']

/-- The path `/home/josé/main.go`: 18 characters in 19 bytes. -/
def accentPath : GoString := "/home/jos".toList ++ [Char.ofNat 0xe9] ++ "/main.go".toList

/-- The package variables other than the sinks and the process status agree. -/
def SameVars (s s1 : State) : Prop :=
  s1.logConfig = s.logConfig ∧ s1.logError = s.logError ∧ s1.logInfo = s.logInfo ∧
    s1.logDebug = s.logDebug

/-! ## Writers -/

theorem receive_frame (env : Env) (k j : Sink) (p : GoString) (world : World) (hj : j ≠ k) :
    (receive env k p world).1 j = world j := by
  unfold receive
  cases k with
  | buffer b => simp [World.append, hj]
  | stdout =>
    simp only
    cases env.writeFault .stdout (world .stdout) p <;> simp [World.append, hj]
  | file id =>
    simp only
    cases env.writeFault (.file id) (world (.file id)) p <;> simp [World.append, hj]

theorem receive_done (env : Env) (k : Sink) (p : GoString) (world : World)
    (ha : k.Accepts env) :
    receive env k p world = (fun j => if j = k then world j ++ p else world j, .done) := by
  unfold receive
  cases k with
  | buffer b => rfl
  | stdout =>
    have h : env.writeFault .stdout (world .stdout) p = none := ha _ _
    simp only [h]
    rfl
  | file id =>
    have h : env.writeFault (.file id) (world (.file id)) p = none := ha _ _
    simp only [h]
    rfl

theorem write_frame (env : Env) (w : Writer) (p : GoString) (world : World) (k : Sink)
    (hk : k ∉ w.sinks) : (w.Write env p world).1 k = world k := by
  induction w generalizing world with
  | stdout =>
    simp only [Writer.sinks, List.mem_singleton] at hk
    exact receive_frame env _ _ p world hk
  | file f =>
    cases f with
    | none => simp [Writer.Write]
    | some f =>
      simp only [Writer.sinks, List.mem_singleton] at hk
      exact receive_frame env _ _ p world hk
  | buffer b =>
    cases b with
    | none => simp [Writer.Write]
    | some b =>
      simp only [Writer.sinks, List.mem_singleton] at hk
      exact receive_frame env _ _ p world hk
  | discard => simp [Writer.Write]
  | multi a b iha ihb =>
    simp only [Writer.sinks, List.mem_append, not_or] at hk
    have h1 := iha world hk.1
    simp only [Writer.Write]
    rcases hr : a.Write env p world with ⟨w1, st⟩
    rw [hr] at h1
    cases st with
    | done => simp only; rw [ihb w1 hk.2]; exact h1
    | failed => simpa using h1
    | panicked q => simpa using h1

theorem write_done (env : Env) (w : Writer) (p : GoString) (world : World)
    (hp : w.present = true) (hn : w.sinks.Nodup) (ha : ∀ k ∈ w.sinks, k.Accepts env) :
    w.Write env p world = (fun k => if k ∈ w.sinks then world k ++ p else world k, .done) := by
  induction w generalizing world with
  | stdout =>
    simp only [Writer.Write, Writer.sinks, List.mem_singleton]
    exact receive_done env _ p world (ha _ (by simp [Writer.sinks]))
  | file f =>
    cases f with
    | none => simp [Writer.present] at hp
    | some f =>
      simp only [Writer.Write, Writer.sinks, List.mem_singleton]
      exact receive_done env _ p world (ha _ (by simp [Writer.sinks]))
  | buffer b =>
    cases b with
    | none => simp [Writer.present] at hp
    | some b =>
      simp only [Writer.Write, Writer.sinks, List.mem_singleton]
      exact receive_done env _ p world (ha _ (by simp [Writer.sinks]))
  | discard => simp [Writer.Write, Writer.sinks]
  | multi a b iha ihb =>
    simp only [Writer.present, Bool.and_eq_true] at hp
    simp only [Writer.sinks] at hn ha
    have hna := (List.nodup_append.mp hn).1
    have hnb := (List.nodup_append.mp hn).2.1
    have hd := (List.nodup_append.mp hn).2.2
    simp only [Writer.Write, iha world hp.1 hna (fun k hk => ha k (List.mem_append_left _ hk)),
      ihb _ hp.2 hnb (fun k hk => ha k (List.mem_append_right _ hk)), Writer.sinks,
      List.mem_append]
    congr 1
    funext k
    by_cases hka : k ∈ a.sinks
    · have hb : k ∉ b.sinks := fun hb => hd hka hb
      simp [hka, hb]
    · simp [hka]

theorem sinks_getWriter (c : LogConfiguration) : (getWriter c).sinks = modeSinks c := by
  unfold getWriter modeSinks
  split
  · rfl
  · split
    · cases c.file <;> rfl
    · split
      · cases c.file <;> rfl
      · split
        · cases c.buff <;> rfl
        · rfl

/-! ## The invariant -/

theorem inv_of_sameVars {s s1 : State} (h : SameVars s s1) (hi : Inv s) : Inv s1 := by
  obtain ⟨h1, h2, h3, h4⟩ := h
  constructor <;> simp only [h1, h2, h3, h4]
  · exact hi.errorOut
  · exact hi.infoOut
  · exact hi.debugOut
  · exact hi.errorFlag
  · exact hi.infoFlag
  · exact hi.debugFlag
  · exact hi.errorTag
  · exact hi.infoTag
  · exact hi.debugTag
  · exact hi.mode
  · exact hi.fileOpen
  · exact hi.level

theorem sameVars_afterWrite (s : State) (r : World × WriteStatus) : SameVars s (s.afterWrite r) := by
  unfold State.afterWrite
  cases r.2 <;> exact ⟨rfl, rfl, rfl, rfl⟩

theorem sameVars_Info (env : Env) (now : Time) (v : List Value) (s : State) :
    SameVars s (Info env now v s) := by
  unfold Info
  split
  · exact sameVars_afterWrite _ _
  · exact ⟨rfl, rfl, rfl, rfl⟩

theorem sameVars_Debug (env : Env) (now : Time) (v : List Value) (s : State) :
    SameVars s (Debug env now v s) := by
  unfold Debug
  split
  · exact sameVars_afterWrite _ _
  · exact ⟨rfl, rfl, rfl, rfl⟩

theorem sameVars_Error (env : Env) (site : CallSite) (now : Time) (v : List Value) (s : State) :
    SameVars s (Error env site now v s) := by
  unfold Error
  split
  · split
    · exact ⟨rfl, rfl, rfl, rfl⟩
    · split
      · exact ⟨rfl, rfl, rfl, rfl⟩
      · exact sameVars_afterWrite _ _
  · exact ⟨rfl, rfl, rfl, rfl⟩

theorem sameVars_Fatal (env : Env) (site : CallSite) (now : Time) (v : List Value) (s : State) :
    SameVars s (Fatal env site now v s) := by
  unfold Fatal
  split
  · exact ⟨rfl, rfl, rfl, rfl⟩
  · split
    · exact ⟨rfl, rfl, rfl, rfl⟩
    · simp only
      split
      · exact sameVars_afterWrite _ _
      · exact sameVars_afterWrite _ _

theorem inv_init (w : World) : Inv (init w) := by
  constructor <;> simp [init, getDefaultConfiguration, OutputConsole, LevelDebug, LevelFatal,
    LevelError, LevelInfo, OutputFile, OutputConsoleAndFile]

theorem inv_SetFlags (flags : Int) (s : State) (hi : Inv s) : Inv (SetFlags flags s) := by
  constructor <;> simp only [SetFlags, updateLoggerConfig]
  · exact hi.errorTag
  · exact hi.infoTag
  · exact hi.debugTag
  · exact hi.mode
  · exact hi.fileOpen
  · exact hi.level

theorem inv_SetOutputConsole (s : State) (hi : Inv s) : Inv (SetOutputConsole s) := by
  constructor <;> simp only [SetOutputConsole, updateLoggerConfig]
  · exact hi.errorTag
  · exact hi.infoTag
  · exact hi.debugTag
  · simp
  · simp [OutputConsole, OutputFile, OutputConsoleAndFile]
  · exact hi.level

theorem inv_SetOutputBuffer (b : Option Nat) (s : State) (hi : Inv s) :
    Inv (SetOutputBuffer b s) := by
  constructor <;> simp only [SetOutputBuffer, updateLoggerConfig]
  · exact hi.errorTag
  · exact hi.infoTag
  · exact hi.debugTag
  · simp
  · simp [OutputBuffer, OutputFile, OutputConsoleAndFile]
  · exact hi.level

theorem inv_SetOutputFile (env : Env) (fileName : GoString) (s : State) (hi : Inv s) :
    Inv (SetOutputFile env fileName s).2 := by
  unfold SetOutputFile
  split
  · exact hi
  · constructor <;> simp only [updateLoggerConfig]
    · exact hi.errorTag
    · exact hi.infoTag
    · exact hi.debugTag
    · simp
    · simp
    · exact hi.level

theorem inv_SetOutputConsoleAndFile (env : Env) (fileName : GoString) (s : State) (hi : Inv s) :
    Inv (SetOutputConsoleAndFile env fileName s).2 := by
  unfold SetOutputConsoleAndFile
  split
  · exact hi
  · constructor <;> simp only [updateLoggerConfig]
    · exact hi.errorTag
    · exact hi.infoTag
    · exact hi.debugTag
    · simp
    · simp
    · exact hi.level

theorem getWriter_level (c : LogConfiguration) (level : Int) :
    getWriter { c with level := level } = getWriter c := rfl

theorem inv_SetLogLevel (level : Int) (s : State) (hi : Inv s) :
    Inv (SetLogLevel level s).2 := by
  unfold SetLogLevel
  split
  · exact hi
  · rename_i h
    constructor <;> simp only [getWriter_level]
    · exact hi.errorOut
    · exact hi.infoOut
    · exact hi.debugOut
    · exact hi.errorFlag
    · exact hi.infoFlag
    · exact hi.debugFlag
    · exact hi.errorTag
    · exact hi.infoTag
    · exact hi.debugTag
    · exact hi.mode
    · exact hi.fileOpen
    · by_contra hc
      exact h ⟨fun e => hc (Or.inl e), fun e => hc (Or.inr (Or.inl e)),
        fun e => hc (Or.inr (Or.inr (Or.inl e))), fun e => hc (Or.inr (Or.inr (Or.inr e)))⟩

theorem inv_exec (env : Env) (s : State) (c : Call) (hi : Inv s) : Inv (exec env s c) := by
  unfold exec
  split
  · cases c with
    | SetFlags flags => exact inv_SetFlags flags s hi
    | SetOutputConsole => exact inv_SetOutputConsole s hi
    | SetOutputFile f => exact inv_SetOutputFile env f s hi
    | SetOutputConsoleAndFile f => exact inv_SetOutputConsoleAndFile env f s hi
    | SetOutputBuffer b => exact inv_SetOutputBuffer b s hi
    | SetLogLevel l => exact inv_SetLogLevel l s hi
    | Fatal site now v => exact inv_of_sameVars (sameVars_Fatal env site now v s) hi
    | Error site now v => exact inv_of_sameVars (sameVars_Error env site now v s) hi
    | Info now v => exact inv_of_sameVars (sameVars_Info env now v s) hi
    | Debug now v => exact inv_of_sameVars (sameVars_Debug env now v s) hi
  · exact hi

theorem inv_run (env : Env) (calls : List Call) (s : State) (hi : Inv s) :
    Inv (run env s calls) := by
  induction calls generalizing s with
  | nil => exact hi
  | cons c cs ih => exact ih _ (inv_exec env s c hi)

theorem inv_of_reachable {env : Env} {s : State} (h : Reachable env s) : Inv s := by
  obtain ⟨w, calls, rfl⟩ := h
  exact inv_run env calls _ (inv_init w)

theorem getWriter_sound (env : Env) (s : State) (hi : Inv s) (hu : Usable env s) :
    (getWriter s.logConfig).present = true ∧ (getWriter s.logConfig).sinks.Nodup ∧
      ∀ k ∈ (getWriter s.logConfig).sinks, k.Accepts env := by
  refine ⟨?_, ?_, fun k hk => hu.accepts k (by rw [← sinks_getWriter]; exact hk)⟩
  · have hf := hi.fileOpen
    rcases hi.mode with h | h | h | h
    · simp [getWriter, h, Writer.present]
    · obtain ⟨f, hf2⟩ := Option.ne_none_iff_exists'.mp (hf (Or.inl h))
      simp [getWriter, h, hf2, Writer.present, OutputFile, OutputConsole]
    · obtain ⟨f, hf2⟩ := Option.ne_none_iff_exists'.mp (hf (Or.inr h))
      simp [getWriter, h, hf2, Writer.present, OutputFile, OutputConsole,
        OutputConsoleAndFile]
    · obtain ⟨f, hf2⟩ := Option.ne_none_iff_exists'.mp (hu.buffer h)
      simp [getWriter, h, hf2, Writer.present, OutputFile, OutputConsole,
        OutputConsoleAndFile, OutputBuffer]
  · have hf := hi.fileOpen
    rcases hi.mode with h | h | h | h
    · simp [getWriter, h, Writer.sinks]
    · obtain ⟨f, hf2⟩ := Option.ne_none_iff_exists'.mp (hf (Or.inl h))
      simp [getWriter, h, hf2, Writer.sinks, OutputFile, OutputConsole]
    · obtain ⟨f, hf2⟩ := Option.ne_none_iff_exists'.mp (hf (Or.inr h))
      have hne := hu.apart h f hf2
      simp [getWriter, h, hf2, Writer.sinks, OutputFile, OutputConsole,
        OutputConsoleAndFile, hne]
    · obtain ⟨f, hf2⟩ := Option.ne_none_iff_exists'.mp (hu.buffer h)
      simp [getWriter, h, hf2, Writer.sinks, OutputFile, OutputConsole,
        OutputConsoleAndFile, OutputBuffer]

/-- A write through a logger bound to the configured destination lands once in
each sink of the writer `getWriter` selects. -/
theorem output_appended (env : Env) (s : State) (l : Logger) (hi : Inv s) (hu : Usable env s)
    (hl : l.out = getWriter s.logConfig) (now : Time) (file : GoString) (line : Nat)
    (text : GoString) :
    (s.afterWrite (l.Output env now file line text s.world)).status = s.status ∧
    AppendedTo (destination s) (l.record now file line text) s.world
      (s.afterWrite (l.Output env now file line text s.world)).world := by
  obtain ⟨hp, hn, ha⟩ := getWriter_sound env s hi hu
  unfold Logger.Output
  rw [hl, write_done env _ _ _ hp hn ha]
  refine ⟨rfl, ?_⟩
  intro k
  rfl

/-! ## Formatting -/

theorem writeSpaced_succ (n : Nat) (xs : List GoString) :
    writeSpaced (n + 1) xs = writeSpaced 1 xs := by
  induction xs generalizing n with
  | nil => rfl
  | cons x xs ih => simp only [writeSpaced, Nat.succ_pos, if_true, gt_iff_lt, Nat.lt_add_one, ih]

theorem writeSpaced_one_cons (x : GoString) (xs : List GoString) :
    writeSpaced 1 (x :: xs) = ' ' :: x ++ writeSpaced 1 xs := by
  simp [writeSpaced, writeSpaced_succ 1 xs]

theorem writeSpaced_zero_cons (x : GoString) (xs : List GoString) :
    writeSpaced 0 (x :: xs) = x ++ writeSpaced 1 xs := by
  simp [writeSpaced]

theorem joinSpaces_cons (x : GoString) (xs : List GoString) :
    joinSpaces (x :: xs) = x ++ writeSpaced 1 xs := by
  induction xs generalizing x with
  | nil => simp [joinSpaces, writeSpaced]
  | cons y ys ih => simp [joinSpaces, ih, writeSpaced_one_cons]

theorem writeSpaced_zero (xs : List GoString) : writeSpaced 0 xs = joinSpaces xs := by
  cases xs with
  | nil => rfl
  | cons x xs => rw [writeSpaced_zero_cons, joinSpaces_cons]

theorem formatSlice_eq (vs : List Value) :
    formatSlice vs = '[' :: joinSpaces (vs.map Value.format) ++ [']'] := by
  simp [formatSlice, writeSpaced_zero]

theorem Sprintln_values (vs : List Value) :
    Sprintln (vs.map Operand.value) = joinSpaces (vs.map Value.format) ++ ['\n'] := by
  simp [Sprintln, writeSpaced_zero, Operand.format, Function.comp_def]

theorem Sprintln_error (pfx : GoString) (vs : List Value) :
    Sprintln [.value (.str pfx), .values vs] = (pfx ++ ' ' :: formatSlice vs) ++ ['\n'] := by
  simp [Sprintln, writeSpaced, Operand.format, Value.format]

theorem record_of_newline (l : Logger) (now : Time) (file : GoString) (line : Nat)
    (body : GoString) :
    l.record now file line (body ++ ['\n']) = l.formatHeader now file line ++ body ++ ['\n'] := by
  simp [Logger.record]

theorem record_of_bracket (l : Logger) (now : Time) (file : GoString) (line : Nat)
    (body : GoString) :
    l.record now file line (body ++ [']']) =
      l.formatHeader now file line ++ body ++ [']'] ++ ['\n'] := by
  simp [Logger.record]

theorem fmtInt_eq_toString (i : Int) : fmtInt i = (toString i).toList := by
  cases i with
  | ofNat n =>
    show decimal n = _
    simp [decimal, toString, instToStringInt, Nat.repr, String.toList, List.asString]
  | negSucc n =>
    simp [fmtInt, decimal, toString, instToStringInt, Nat.repr, String.toList, List.asString]

/-! ## The emitters on a bound logger -/

theorem record_eq_recordText (env : Env) (l : Logger) (tag : GoString) (flag : Int) (now : Time)
    (line : Nat) (body : GoString) (ht : l.tag = tag) (hf : l.flag = flag) :
    l.formatHeader now (loggerFile env) line ++ body ++ ['\n'] =
      recordText env tag flag now line body := by
  simp only [Logger.formatHeader, recordText, loggerFile, ht, hf]

theorem siteBody_eq (fn file : GoString) (line : Int) (v : List Value) :
    sprintfAt fn file line ++ ' ' :: formatSlice v = siteBody fn file line v := by
  simp [sprintfAt, siteBody, formatSlice_eq, fmtInt_eq_toString]

theorem info_emits (env : Env) (now : Time) (v : List Value) (s : State) (hi : Inv s)
    (hu : Usable env s) (hl : s.logConfig.level ≥ LevelInfo) :
    (Info env now v s).status = s.status ∧
    AppendedTo (destination s)
      (recordText env "[INFO]".toList s.logConfig.flags now 172 (valuesBody v))
      s.world (Info env now v s).world := by
  unfold Info
  rw [if_pos hl]
  have h := output_appended env s s.logInfo hi hu hi.infoOut now (loggerFile env) 172
    (Sprintln (v.map Operand.value))
  rw [Sprintln_values, record_of_newline,
    record_eq_recordText env _ _ _ _ _ _ hi.infoTag hi.infoFlag] at h
  simpa [Logger.Println, Sprintln_values, valuesBody] using h

theorem debug_emits (env : Env) (now : Time) (v : List Value) (s : State) (hi : Inv s)
    (hu : Usable env s) (hl : s.logConfig.level ≥ LevelDebug) :
    (Debug env now v s).status = s.status ∧
    AppendedTo (destination s)
      (recordText env "[DEBUG]".toList s.logConfig.flags now 178 (valuesBody v))
      s.world (Debug env now v s).world := by
  unfold Debug
  rw [if_pos hl]
  have h := output_appended env s s.logDebug hi hu hi.debugOut now (loggerFile env) 178
    (Sprintln (v.map Operand.value))
  rw [Sprintln_values, record_of_newline,
    record_eq_recordText env _ _ _ _ _ _ hi.debugTag hi.debugFlag] at h
  simpa [Logger.Println, Sprintln_values, valuesBody] using h

theorem error_emits (env : Env) (site : CallSite) (fn file : GoString) (now : Time)
    (v : List Value) (s : State) (hi : Inv s) (hu : Usable env s)
    (hsite : SiteReturns env site fn file) (hl : s.logConfig.level ≥ LevelError) :
    (Error env site now v s).status = s.status ∧
    AppendedTo (destination s)
      (recordText env "[ERROR]".toList s.logConfig.flags now 166
        (siteBody fn file site.line v))
      s.world (Error env site now v s).world := by
  unfold Error
  rw [if_pos hl]
  simp only [hsite.1, hsite.2]
  have h := output_appended env s s.logError hi hu hi.errorOut now (loggerFile env) 166
    (Sprintln [.value (.str (sprintfAt fn file site.line)), .values v])
  rw [Sprintln_error, record_of_newline, siteBody_eq,
    record_eq_recordText env _ _ _ _ _ _ hi.errorTag hi.errorFlag] at h
  simpa [Logger.Println, Sprintln_error, siteBody_eq] using h

theorem fatal_emits (env : Env) (site : CallSite) (fn file : GoString) (now : Time)
    (v : List Value) (s : State) (hi : Inv s) (hu : Usable env s)
    (hsite : SiteReturns env site fn file) (hrun : s.status = .running) :
    (Fatal env site now v s).status = .exited 1 ∧
    AppendedTo (destination s)
      (recordText env "[ERROR]".toList s.logConfig.flags now 158
        (siteBody fn file site.line v))
      s.world (Fatal env site now v s).world := by
  unfold Fatal
  simp only [hsite.1, hsite.2]
  have h := output_appended env s s.logError hi hu hi.errorOut now (loggerFile env) 158
    (sprintfAtV fn file site.line v)
  have e : sprintfAtV fn file site.line v =
      (sprintfAt fn file site.line ++ ' ' :: '[' :: joinSpaces (v.map Value.format)) ++ [']'] := by
    simp [sprintfAtV, sprintfAt, formatSlice_eq]
  have e2 : (sprintfAt fn file site.line ++ ' ' :: '[' :: joinSpaces (v.map Value.format))
      ++ [']'] = siteBody fn file site.line v := by
    rw [← siteBody_eq, formatSlice_eq]; simp
  have e3 : s.logError.formatHeader now (loggerFile env) 158 ++
      (sprintfAt fn file site.line ++ ' ' :: '[' :: joinSpaces (v.map Value.format)) ++ [']']
      ++ ['\n'] =
      recordText env "[ERROR]".toList s.logConfig.flags now 158
        (siteBody fn file site.line v) := by
    rw [List.append_assoc (s.logError.formatHeader now (loggerFile env) 158), e2,
      record_eq_recordText env _ _ _ _ _ _ hi.errorTag hi.errorFlag]
  rw [e, record_of_bracket, e3] at h
  rw [e]
  obtain ⟨h1, h2⟩ := h
  rw [hrun] at h1
  rw [h1]
  exact ⟨rfl, h2⟩

/-! ## Texts without a newline -/

theorem digitChar_ne_newline (n : Nat) : Nat.digitChar n ≠ '\n' := by
  rcases Nat.lt_or_ge n 16 with h | h
  · interval_cases n <;> decide
  · have e : Nat.digitChar n = '*' := by
      simp only [Nat.digitChar, if_neg (show n ≠ 0 by omega), if_neg (show n ≠ 1 by omega), if_neg (show n ≠ 2 by omega), if_neg (show n ≠ 3 by omega), if_neg (show n ≠ 4 by omega), if_neg (show n ≠ 5 by omega), if_neg (show n ≠ 6 by omega), if_neg (show n ≠ 7 by omega), if_neg (show n ≠ 8 by omega), if_neg (show n ≠ 9 by omega), if_neg (show n ≠ 10 by omega), if_neg (show n ≠ 11 by omega), if_neg (show n ≠ 12 by omega), if_neg (show n ≠ 13 by omega), if_neg (show n ≠ 14 by omega), if_neg (show n ≠ 15 by omega)]
    rw [e]
    decide

theorem noNewline_itoaLoop (fuel i : Nat) (wid : Int) (acc : GoString) (h : '\n' ∉ acc) :
    '\n' ∉ itoaLoop fuel i wid acc := by
  induction fuel generalizing i wid acc with
  | zero =>
    simp only [itoaLoop, List.mem_cons, not_or]
    exact ⟨fun e => digitChar_ne_newline _ e.symm, h⟩
  | succ fuel ih =>
    simp only [itoaLoop]
    split
    · apply ih
      simp only [List.mem_cons, not_or]
      exact ⟨fun e => digitChar_ne_newline _ e.symm, h⟩
    · simp only [List.mem_cons, not_or]
      exact ⟨fun e => digitChar_ne_newline _ e.symm, h⟩

theorem noNewline_itoa (i : Nat) (wid : Int) : '\n' ∉ itoa i wid :=
  noNewline_itoaLoop 20 i wid [] (by simp)

theorem noNewline_toDigitsCore (base fuel n : Nat) (acc : List Char) (h : '\n' ∉ acc) :
    '\n' ∉ Nat.toDigitsCore base fuel n acc := by
  induction fuel generalizing n acc with
  | zero => simpa [Nat.toDigitsCore] using h
  | succ fuel ih =>
    simp only [Nat.toDigitsCore]
    split
    · simp only [List.mem_cons, not_or]
      exact ⟨fun e => digitChar_ne_newline _ e.symm, h⟩
    · apply ih
      simp only [List.mem_cons, not_or]
      exact ⟨fun e => digitChar_ne_newline _ e.symm, h⟩

theorem noNewline_fmtInt (i : Int) : '\n' ∉ fmtInt i := by
  cases i with
  | ofNat n => exact noNewline_toDigitsCore 10 _ n [] (by simp)
  | negSucc n =>
    simp only [fmtInt, List.mem_cons, not_or]
    exact ⟨by decide, noNewline_toDigitsCore 10 _ _ [] (by simp)⟩

theorem noNewline_stamp (flag : Int) (now : Time) : '\n' ∉ stamp flag now := by
  have hi := noNewline_itoa
  unfold stamp
  split
  · simp only [List.mem_append, not_or]
    constructor
    · split
      · simp only [List.mem_append, List.mem_singleton, not_or]
        exact ⟨⟨⟨⟨⟨hi _ _, by decide⟩, hi _ _⟩, by decide⟩, hi _ _⟩, by decide⟩
      · simp
    · split
      · simp only [List.mem_append, List.mem_singleton, not_or]
        refine ⟨⟨⟨⟨⟨⟨hi _ _, by decide⟩, hi _ _⟩, by decide⟩, hi _ _⟩, ?_⟩, by decide⟩
        split
        · simp only [List.mem_cons, not_or]
          exact ⟨by decide, hi _ _⟩
        · simp
      · simp
  · simp

theorem mem_afterLastSlash (s : GoString) (c : Char) (h : c ∈ afterLastSlash s) : c ∈ s := by
  induction s with
  | nil => simp [afterLastSlash] at h
  | cons d ds ih =>
    simp only [afterLastSlash] at h
    split at h
    · exact List.mem_cons_of_mem _ (ih h)
    · split at h
      · exact List.mem_cons_of_mem _ h
      · exact h

theorem mem_shortFile (s : GoString) (c : Char) (h : c ∈ shortFile s) : c ∈ s := by
  cases s with
  | nil => simp [shortFile] at h
  | cons d ds =>
    simp only [shortFile] at h
    split at h
    · exact List.mem_cons_of_mem _ (mem_afterLastSlash ds c h)
    · exact h

theorem noNewline_fileText (flag : Int) (file : GoString) (line : Nat) (h : '\n' ∉ file) :
    '\n' ∉ fileText flag file line := by
  unfold fileText
  split
  · simp only [List.mem_append, List.mem_singleton, not_or]
    refine ⟨⟨⟨?_, by decide⟩, noNewline_itoa _ _⟩, by decide⟩
    split
    · exact fun hc => h (mem_shortFile _ _ hc)
    · exact h
  · simp

theorem noNewline_formatHeader (tag : GoString) (flag : Int) (now : Time) (file : GoString)
    (line : Nat) (ht : '\n' ∉ tag) (hf : '\n' ∉ file) :
    '\n' ∉ formatHeader tag flag now file line := by
  unfold formatHeader
  simp only [List.mem_append, not_or]
  refine ⟨⟨⟨?_, noNewline_stamp _ _⟩, noNewline_fileText _ _ _ hf⟩, ?_⟩
  · split
    · simp
    · exact ht
  · split
    · exact ht
    · simp

theorem noNewline_joinSpaces (xs : List GoString) (h : NewlineFree xs) :
    '\n' ∉ joinSpaces xs := by
  induction xs with
  | nil => simp [joinSpaces]
  | cons x xs ih =>
    cases xs with
    | nil => simpa [joinSpaces] using h x (by simp)
    | cons y ys =>
      simp only [joinSpaces, List.mem_append, List.mem_cons, not_or]
      exact ⟨h x (by simp), by decide, ih (fun p hp => h p (List.mem_cons_of_mem _ hp))⟩

theorem oneLine_recordText (env : Env) (tag : GoString) (flag : Int) (now : Time) (line : Nat)
    (body : GoString) (ht : '\n' ∉ tag) (hr : '\n' ∉ env.srcRoot) (hb : '\n' ∉ body) :
    OneLine (recordText env tag flag now line body) := by
  have hh : '\n' ∉ formatHeader tag flag now
      (env.srcRoot ++ "/pkg/util/logger/logger.go".toList) line ++ body := by
    simp only [List.mem_append, not_or]
    refine ⟨noNewline_formatHeader _ _ _ _ _ ht ?_, hb⟩
    simp only [List.mem_append, not_or]
    exact ⟨hr, by decide⟩
  unfold OneLine recordText
  constructor
  · simp
  · rw [List.count_append, List.count_eq_zero.mpr hh]
    rfl

theorem noNewline_valuesBody (v : List Value) (h : NewlineFree (v.map Value.format)) :
    '\n' ∉ valuesBody v :=
  noNewline_joinSpaces _ h

theorem noNewline_append {a b : GoString} (ha : '\n' ∉ a) (hb : '\n' ∉ b) :
    '\n' ∉ a ++ b := by
  simp only [List.mem_append, not_or]
  exact ⟨ha, hb⟩

theorem noNewline_siteBody (fn file : GoString) (line : Int) (v : List Value)
    (h1 : '\n' ∉ fn) (h2 : '\n' ∉ file) (h : NewlineFree (v.map Value.format)) :
    '\n' ∉ siteBody fn file line v := by
  unfold siteBody
  rw [← fmtInt_eq_toString]
  repeat' apply noNewline_append
  all_goals first
    | exact h1
    | exact h2
    | exact noNewline_fmtInt _
    | exact noNewline_joinSpaces _ h
    | decide

/-! ## Stale buffers -/

theorem world_afterWrite (s : State) (r : World × WriteStatus) : (s.afterWrite r).world = r.1 := by
  unfold State.afterWrite
  cases r.2 <;> rfl

theorem stale_of_sameVars {b : Nat} {s s1 : State} (h : SameVars s s1) (hs : Stale b s) :
    Stale b s1 := by
  obtain ⟨h1, h2, h3, h4⟩ := h
  unfold Stale
  rw [h1, h2, h3, h4]
  exact hs

theorem info_frame (env : Env) (now : Time) (v : List Value) (s : State) (k : Sink)
    (hk : k ∉ s.logInfo.out.sinks) : (Info env now v s).world k = s.world k := by
  unfold Info
  split
  · rw [world_afterWrite]
    exact write_frame env _ _ _ _ hk
  · rfl

theorem debug_frame (env : Env) (now : Time) (v : List Value) (s : State) (k : Sink)
    (hk : k ∉ s.logDebug.out.sinks) : (Debug env now v s).world k = s.world k := by
  unfold Debug
  split
  · rw [world_afterWrite]
    exact write_frame env _ _ _ _ hk
  · rfl

theorem error_frame (env : Env) (site : CallSite) (now : Time) (v : List Value) (s : State)
    (k : Sink) (hk : k ∉ s.logError.out.sinks) : (Error env site now v s).world k = s.world k := by
  unfold Error
  split
  · split
    · rfl
    · split
      · rfl
      · simp only
        rw [world_afterWrite]
        exact write_frame env _ _ _ _ hk
  · rfl

theorem fatal_frame (env : Env) (site : CallSite) (now : Time) (v : List Value) (s : State)
    (k : Sink) (hk : k ∉ s.logError.out.sinks) : (Fatal env site now v s).world k = s.world k := by
  unfold Fatal
  split
  · rfl
  · split
    · rfl
    · simp only
      split
      · simp only [world_afterWrite]
        exact write_frame env _ _ _ _ hk
      · simp only [world_afterWrite]
        exact write_frame env _ _ _ _ hk

theorem stale_of_getWriter (b : Nat) (s : State)
    (h : Sink.buffer b ∉ (getWriter s.logConfig).sinks) : Stale b (updateLoggerConfig s) :=
  ⟨h, h, h, h⟩

theorem not_mem_getWriter_console (b : Nat) (c : LogConfiguration) :
    Sink.buffer b ∉ (getWriter { c with output := OutputConsole }).sinks := by
  simp [getWriter, Writer.sinks]

theorem buffer_ne_fileSink (b : Nat) (f : File) : Sink.buffer b ≠ f.sink := by
  unfold File.sink
  cases f.id <;> simp

theorem not_mem_getWriter_file (b : Nat) (c : LogConfiguration) (f : File) :
    Sink.buffer b ∉ (getWriter { c with file := some f, output := OutputFile }).sinks := by
  simp [getWriter, Writer.sinks, OutputFile, OutputConsole, buffer_ne_fileSink]

theorem not_mem_getWriter_both (b : Nat) (c : LogConfiguration) (f : File) :
    Sink.buffer b ∉ (getWriter { c with file := some f, output := OutputConsoleAndFile }).sinks := by
  simp [getWriter, Writer.sinks, OutputFile, OutputConsole, OutputConsoleAndFile,
    buffer_ne_fileSink]

theorem not_mem_getWriter_buffer (b : Nat) (c : LogConfiguration) (b2 : Option Nat)
    (h : b2 ≠ some b) :
    Sink.buffer b ∉ (getWriter { c with output := OutputBuffer, buff := b2 }).sinks := by
  cases b2 with
  | none => simp [getWriter, Writer.sinks, OutputFile, OutputConsole, OutputConsoleAndFile,
      OutputBuffer]
  | some x =>
    have hx : b ≠ x := fun e => h (by rw [e])
    simp [getWriter, Writer.sinks, OutputFile, OutputConsole, OutputConsoleAndFile,
      OutputBuffer, hx]

theorem stale_exec (env : Env) (b : Nat) (s : State) (c : Call) (hs : Stale b s)
    (hc : c ≠ .SetOutputBuffer (some b)) :
    Stale b (exec env s c) ∧ (exec env s c).world (.buffer b) = s.world (.buffer b) := by
  unfold exec
  split
  · cases c with
    | SetFlags flags => exact ⟨stale_of_getWriter b _ hs.2.2.2, rfl⟩
    | SetOutputConsole => exact ⟨stale_of_getWriter b _ (not_mem_getWriter_console b _), rfl⟩
    | SetOutputFile f =>
      simp only [SetOutputFile]
      split
      · exact ⟨hs, rfl⟩
      · exact ⟨stale_of_getWriter b _ (not_mem_getWriter_file b _ _), rfl⟩
    | SetOutputConsoleAndFile f =>
      simp only [SetOutputConsoleAndFile]
      split
      · exact ⟨hs, rfl⟩
      · exact ⟨stale_of_getWriter b _ (not_mem_getWriter_both b _ _), rfl⟩
    | SetOutputBuffer b2 =>
      have h2 : b2 ≠ some b := fun e => hc (by rw [e])
      exact ⟨stale_of_getWriter b _ (not_mem_getWriter_buffer b _ b2 h2), rfl⟩
    | SetLogLevel l =>
      simp only [SetLogLevel]
      split
      · exact ⟨hs, rfl⟩
      · exact ⟨hs, rfl⟩
    | Fatal site now v =>
      exact ⟨stale_of_sameVars (sameVars_Fatal env site now v s) hs,
        fatal_frame env site now v s _ hs.1⟩
    | Error site now v =>
      exact ⟨stale_of_sameVars (sameVars_Error env site now v s) hs,
        error_frame env site now v s _ hs.1⟩
    | Info now v =>
      exact ⟨stale_of_sameVars (sameVars_Info env now v s) hs,
        info_frame env now v s _ hs.2.1⟩
    | Debug now v =>
      exact ⟨stale_of_sameVars (sameVars_Debug env now v s) hs,
        debug_frame env now v s _ hs.2.2.1⟩
  · exact ⟨hs, rfl⟩

theorem stale_run (env : Env) (b : Nat) (calls : List Call) (s : State) (hs : Stale b s)
    (hc : ∀ c ∈ calls, c ≠ Call.SetOutputBuffer (some b)) :
    (run env s calls).world (.buffer b) = s.world (.buffer b) := by
  induction calls generalizing s with
  | nil => rfl
  | cons c cs ih =>
    obtain ⟨h1, h2⟩ := stale_exec env b s c hs (hc c (List.mem_cons_self _ _))
    have := ih (exec env s c) h1 (fun d hd => hc d (List.mem_cons_of_mem _ hd))
    simp only [run, List.foldl_cons] at this ⊢
    rw [this, h2]

theorem destination_SetOutputBuffer (b : Nat) (s : State) :
    destination (SetOutputBuffer (some b) s) = [.buffer b] := by
  simp [destination, SetOutputBuffer, updateLoggerConfig, getWriter, Writer.sinks, OutputFile,
    OutputConsole, OutputConsoleAndFile, OutputBuffer]

theorem usable_SetOutputBuffer (env : Env) (b : Nat) (s : State) :
    Usable env (SetOutputBuffer (some b) s) := by
  constructor
  · intro _
    simp [SetOutputBuffer, updateLoggerConfig]
  · intro k hk
    have : k = .buffer b := by
      simpa [modeSinks, SetOutputBuffer, updateLoggerConfig, OutputFile, OutputConsole,
        OutputConsoleAndFile, OutputBuffer] using hk
    rw [this]
    trivial
  · intro h
    exact absurd h (by simp [SetOutputBuffer, updateLoggerConfig, OutputBuffer,
      OutputConsoleAndFile])

theorem file_kept_exec (env : Env) (s : State) (c : Call) (h : s.logConfig.file ≠ none) :
    (exec env s c).logConfig.file ≠ none := by
  unfold exec
  split
  · cases c with
    | SetFlags flags => exact h
    | SetOutputConsole => exact h
    | SetOutputFile f =>
      simp only [SetOutputFile]
      split
      · exact h
      · simp [updateLoggerConfig]
    | SetOutputConsoleAndFile f =>
      simp only [SetOutputConsoleAndFile]
      split
      · exact h
      · simp [updateLoggerConfig]
    | SetOutputBuffer b2 => exact h
    | SetLogLevel l =>
      simp only [SetLogLevel]
      split
      · exact h
      · exact h
    | Fatal site now v => rw [(sameVars_Fatal env site now v s).1]; exact h
    | Error site now v => rw [(sameVars_Error env site now v s).1]; exact h
    | Info now v => rw [(sameVars_Info env now v s).1]; exact h
    | Debug now v => rw [(sameVars_Debug env now v s).1]; exact h
  · exact h

theorem buff_kept_exec (env : Env) (s : State) (c : Call) (h : ∀ b, c ≠ Call.SetOutputBuffer b) :
    (exec env s c).logConfig.buff = s.logConfig.buff := by
  unfold exec
  split
  · cases c with
    | SetFlags flags => rfl
    | SetOutputConsole => rfl
    | SetOutputFile f =>
      simp only [SetOutputFile]
      split <;> rfl
    | SetOutputConsoleAndFile f =>
      simp only [SetOutputConsoleAndFile]
      split <;> rfl
    | SetOutputBuffer b2 => exact absurd rfl (h b2)
    | SetLogLevel l =>
      simp only [SetLogLevel]
      split <;> rfl
    | Fatal site now v => rw [(sameVars_Fatal env site now v s).1]
    | Error site now v => rw [(sameVars_Error env site now v s).1]
    | Info now v => rw [(sameVars_Info env now v s).1]
    | Debug now v => rw [(sameVars_Debug env now v s).1]
  · rfl

/-! ## shortenName on single-byte text -/

theorem runeLen_ascii (c : Char) (h : c.toNat < 128) : runeLen c = 1 := by
  simp [runeLen, h]

theorem byteLen_ascii (name : GoString) (h : ∀ c ∈ name, c.toNat < 128) :
    byteLen name = name.length := by
  induction name with
  | nil => rfl
  | cons c cs ih =>
    simp only [byteLen, List.length_cons]
    rw [runeLen_ascii c (h c (List.mem_cons_self _ _)),
      ih (fun d hd => h d (List.mem_cons_of_mem _ hd))]
    omega

theorem startsWith_single (c t : Char) (cs : GoString) :
    startsWith (c :: cs) [t] = (c == t) := by
  cases cs <;> simp [startsWith]

theorem lastIndexBytes_none (t : Char) (name : GoString) :
    lastIndexBytes [t] name = none ↔ t ∉ name := by
  induction name with
  | nil => simp [lastIndexBytes]
  | cons c cs ih =>
    simp only [lastIndexBytes, startsWith_single]
    cases hq : lastIndexBytes [t] cs with
    | some j =>
      have : ¬ t ∉ cs := fun h => by rw [ih.mpr h] at hq; exact Option.noConfusion hq
      simp only [List.mem_cons, not_or]
      constructor
      · intro h; exact Option.noConfusion h
      · intro h; exact absurd h.2 this
    | none =>
      have hn := ih.mp hq
      by_cases hc : c = t
      · simp [hc]
      · have hc2 : ¬ t = c := fun e => hc e.symm
        simp [hc, hc2, hn]

theorem lastIndexBytes_some (t : Char) (name : GoString) (i : Nat)
    (ha : ∀ c ∈ name, c.toNat < 128) (h : lastIndexBytes [t] name = some i) :
    ∃ pre post, name = pre ++ t :: post ∧ pre.length = i ∧ t ∉ post := by
  induction name generalizing i with
  | nil => simp [lastIndexBytes] at h
  | cons c cs ih =>
    simp only [lastIndexBytes, startsWith_single] at h
    cases hq : lastIndexBytes [t] cs with
    | some j =>
      rw [hq] at h
      simp only [Option.some.injEq] at h
      obtain ⟨pre, post, h1, h2, h3⟩ := ih j (fun d hd => ha d (List.mem_cons_of_mem _ hd)) hq
      refine ⟨c :: pre, post, by rw [h1]; rfl, ?_, h3⟩
      rw [runeLen_ascii c (ha c (List.mem_cons_self _ _))] at h
      simp only [List.length_cons, h2]
      omega
    | none =>
      rw [hq] at h
      simp only at h
      by_cases hc : c = t
      · subst hc
        simp only [beq_self_eq_true, if_true, Option.some.injEq] at h
        exact ⟨[], cs, rfl, by simpa using h, (lastIndexBytes_none c cs).mp hq⟩
      · simp [hc] at h

theorem shortenName_ascii (env : Env) (name : GoString) (t : Char)
    (ha : ∀ c ∈ name, c.toNat < 128) :
    (0 ≤ LastIndex name [t] + 1 ∧ LastIndex name [t] + 1 ≤ (byteLen name : Int) ∧
      byteLen name = (toRunes env name).elems.length) ∧
    ∃ r, shortenName env name [t] = .ok r ∧ r <:+ name ∧ t ∉ r ∧
      ∀ pre post, name = pre ++ t :: post → t ∉ post → r = post := by
  have hB := byteLen_ascii name ha
  cases hq : lastIndexBytes [t] name with
  | none =>
    have hL : LastIndex name [t] = -1 := by simp [LastIndex, hq]
    have hn := (lastIndexBytes_none t name).mp hq
    refine ⟨⟨by rw [hL]; decide, by rw [hL]; simp, by rw [hB]; rfl⟩, name, ?_,
      List.suffix_refl _, hn, ?_⟩
    · simp [shortenName, hL]
    · intro pre post h _
      exact absurd (by rw [h]; simp) hn
  | some i =>
    have hL : LastIndex name [t] = (i : Int) := by simp [LastIndex, hq]
    obtain ⟨pre, post, h1, h2, h3⟩ := lastIndexBytes_some t name i ha hq
    have hlen : name.length = i + 1 + post.length := by rw [h1]; simp [h2]; omega
    refine ⟨⟨by rw [hL]; omega, by rw [hL, hB, hlen]; push_cast; omega, by rw [hB]; rfl⟩,
      post, ?_, ⟨pre ++ [t], by rw [h1]; simp⟩, h3, ?_⟩
    · have hne : (i : Int) ≠ -1 := by omega
      have hc : (0 : Int) ≤ (i : Int) + 1 ∧ (i : Int) + 1 ≤ (name.length : Int) ∧
          (name.length : Int) ≤ ((name.length + env.runeSlack name.length : Nat) : Int) := by
        refine ⟨by omega, by rw [hlen]; push_cast; omega, by push_cast; omega⟩
      unfold shortenName
      simp only [hL, hB, toRunes, RuneSlice.slice]
      rw [if_pos (by simp), if_pos hc]
      simp only [Except.map, RuneSlice.toGoString, RuneSlice.backing, Int.toNat_ofNat]
      congr 1
      have e : (i : Int) + 1 = ((i + 1 : Nat) : Int) := by push_cast; rfl
      rw [e, Int.toNat_ofNat, List.take_left' rfl, h1]
      have e2 : pre ++ t :: post = (pre ++ [t]) ++ post := by simp
      rw [e2, List.drop_left' (by simp [h2])]
    · intro pre2 post2 h4 h5
      rw [h1] at h4
      -- both decompositions split at the last occurrence of t
      have key : ∀ (p1 p2 q1 q2 : GoString), p1 ++ t :: q1 = p2 ++ t :: q2 →
          t ∉ q1 → t ∉ q2 → q1 = q2 := by
        intro p1
        induction p1 with
        | nil =>
          intro p2 q1 q2 h hq1 hq2
          cases p2 with
          | nil =>
            simp only [List.nil_append, List.cons.injEq, true_and] at h
            exact h
          | cons a p2 =>
            simp only [List.nil_append, List.cons_append, List.cons.injEq] at h
            exact absurd (by rw [h.2]; simp) hq1
        | cons a p1 ih =>
          intro p2 q1 q2 h hq1 hq2
          cases p2 with
          | nil =>
            simp only [List.nil_append, List.cons_append, List.cons.injEq] at h
            exact absurd (by rw [← h.2]; simp) hq2
          | cons b p2 =>
            simp only [List.cons_append, List.cons.injEq] at h
            exact ih p2 q1 q2 h.2 hq1 hq2
      exact key pre pre2 post post2 h4 h3 h5

/-! ## Samples and headers -/

theorem modeSinks_SetLogLevel (level : Int) (s : State) :
    modeSinks (SetLogLevel level s).2.logConfig = modeSinks s.logConfig := by
  unfold SetLogLevel
  split <;> rfl

theorem usable_SetLogLevel (env : Env) (level : Int) (s : State) (hu : Usable env s) :
    Usable env (SetLogLevel level s).2 := by
  unfold SetLogLevel
  split
  · exact hu
  · exact ⟨hu.buffer, hu.accepts, hu.apart⟩

theorem sampleSite_returns :
    SiteReturns sampleEnv sampleSite "main".toList "main.go".toList := ⟨rfl, rfl⟩

theorem accepts_sampleEnv (k : Sink) : k.Accepts sampleEnv := by
  cases k with
  | buffer b => trivial
  | stdout => intro _ _; rfl
  | file id => intro _ _; rfl

theorem recordText_stamp_only (env : Env) (tag : GoString) (flag : Int) (now : Time)
    (line : Nat) (body : GoString) (h : StampFlagsOnly flag) :
    recordText env tag flag now line body = tag ++ stamp flag now ++ body ++ ['\n'] := by
  obtain ⟨h1, h2⟩ := h
  simp [recordText, formatHeader, fileText, h1, h2]

theorem recordText_no_file (env : Env) (tag : GoString) (flag : Int) (now : Time)
    (line line1 : Nat) (body : GoString) (h : NoFileFlags flag) :
    recordText env tag flag now line body = recordText env tag flag now line1 body := by
  unfold NoFileFlags at h
  simp [recordText, formatHeader, fileText, h]

theorem stamp_date_time (now : Time) :
    stamp (Int.lor Ldate Ltime) now = dateText now.loc ++ [' '] ++ timeText now.loc ++ [' '] := by
  have h1 : hasFlag (Int.lor Ldate Ltime) (Int.lor Ldate (Int.lor Ltime Lmicroseconds)) = true := by
    decide
  have h2 : hasFlag (Int.lor Ldate Ltime) LUTC = false := by decide
  have h3 : hasFlag (Int.lor Ldate Ltime) Ldate = true := by decide
  have h4 : hasFlag (Int.lor Ldate Ltime) (Int.lor Ltime Lmicroseconds) = true := by decide
  have h5 : hasFlag (Int.lor Ldate Ltime) Lmicroseconds = false := by decide
  simp [stamp, h1, h2, h3, h4, h5, dateText, timeText]

theorem stampFlagsOnly_date_time : StampFlagsOnly (Int.lor Ldate Ltime) := by
  constructor <;> decide

theorem reachable_shortfileState : Reachable sampleEnv shortfileState :=
  ⟨emptyWorld, [.SetFlags Lshortfile], rfl⟩

theorem usable_sample (s : State)
    (hb : s.logConfig.output = OutputBuffer → s.logConfig.buff ≠ none)
    (ha : s.logConfig.output = OutputConsoleAndFile →
      ∀ f, s.logConfig.file = some f → f.sink ≠ .stdout) : Usable sampleEnv s :=
  ⟨hb, fun k _ => accepts_sampleEnv k, ha⟩

/-! ## The claims -/

/-- C1: for every level outside 0, 1, 2, 3 the call `SetLogLevel(level)`
returns an error whose message is "Unsupported log level " followed by the
decimal rendering of `level`, and leaves the whole state, the configuration
included, as it was. -/
theorem C1_setLogLevel_rejects (level : Int) (s : State)
    (h : level ≠ 0 ∧ level ≠ 1 ∧ level ≠ 2 ∧ level ≠ 3) :
    SetLogLevel level s =
      (some (.errorf ("Unsupported log level ".toList ++ (toString level).toList)), s) := by
  unfold SetLogLevel
  rw [if_pos (by simpa [LevelFatal, LevelError, LevelInfo, LevelDebug] using h)]
  simp only [errorfUnsupported, fmtInt_eq_toString]

/-- Witness of C1 at level 100, the value the test suite rejects. -/
theorem C1_setLogLevel_rejects_witness :
    SetLogLevel 100 (init emptyWorld) =
      (some (.errorf "Unsupported log level 100".toList), init emptyWorld) :=
  (C1_setLogLevel_rejects 100 (init emptyWorld) (by decide)).trans (by
    have : (toString (100 : Int)).toList = "100".toList := by decide
    rw [this]; rfl)

/-- C4: when opening `path` fails, `SetOutputFile(path)` and
`SetOutputConsoleAndFile(path)` return the error of the open and leave the
whole state (mode, file handle, buffer, flags, threshold, the three loggers
and their writers) exactly as it was; opening the empty path always fails. -/
theorem C4_open_failure_keeps_state (env : Env) (path : GoString) (s : State) (err : GoError)
    (h : OpenFile env path = .error err) :
    SetOutputFile env path s = (some err, s) ∧
    SetOutputConsoleAndFile env path s = (some err, s) ∧
    OpenFile env [] = .error (.pathError "open".toList []) := by
  refine ⟨?_, ?_, rfl⟩
  · simp only [SetOutputFile, h]
  · simp only [SetOutputConsoleAndFile, h]

/-- Witness of C4: the empty path, on a package logging to a buffer. -/
theorem C4_open_failure_keeps_state_witness :
    SetOutputFile sampleEnv [] (SetOutputBuffer (some 0) (init emptyWorld)) =
      (some (.pathError "open".toList []), SetOutputBuffer (some 0) (init emptyWorld)) ∧
    SetOutputConsoleAndFile sampleEnv [] (SetOutputBuffer (some 0) (init emptyWorld)) =
      (some (.pathError "open".toList []), SetOutputBuffer (some 0) (init emptyWorld)) ∧
    OpenFile sampleEnv [] = .error (.pathError "open".toList []) :=
  C4_open_failure_keeps_state sampleEnv [] (SetOutputBuffer (some 0) (init emptyWorld))
    (.pathError "open".toList []) rfl

/-- C8: switching the destination replaces the writer of all three loggers.
After `SetOutputBuffer(b)` the destination is the buffer `b` alone and every
line an emitter emits is appended to `b`; once `SetOutputConsole()`, or
`SetOutputBuffer(b2)` with another buffer, has followed, no later call
(emitters and setters alike, short of selecting `b` again) changes the
contents of the stale buffer `b`. -/
theorem C8_switch_replaces_target (env : Env) (s : State) (b : Nat) (hr : Reachable env s) :
    (destination (SetOutputBuffer (some b) s) = [.buffer b] ∧
      (SetOutputBuffer (some b) s).logError.out = .buffer (some b) ∧
      (SetOutputBuffer (some b) s).logInfo.out = .buffer (some b) ∧
      (SetOutputBuffer (some b) s).logDebug.out = .buffer (some b)) ∧
    (∀ (now : Time) (v : List Value), s.logConfig.level ≥ LevelInfo →
      ∃ body : GoString, AppendedTo [.buffer b] (body ++ ['\n'])
        (SetOutputBuffer (some b) s).world (Info env now v (SetOutputBuffer (some b) s)).world) ∧
    (∀ (now : Time) (v : List Value), s.logConfig.level ≥ LevelDebug →
      ∃ body : GoString, AppendedTo [.buffer b] (body ++ ['\n'])
        (SetOutputBuffer (some b) s).world (Debug env now v (SetOutputBuffer (some b) s)).world) ∧
    (∀ (site : CallSite) (fn file : GoString) (now : Time) (v : List Value),
      SiteReturns env site fn file → s.logConfig.level ≥ LevelError →
      ∃ body : GoString, AppendedTo [.buffer b] (body ++ ['\n'])
        (SetOutputBuffer (some b) s).world
        (Error env site now v (SetOutputBuffer (some b) s)).world) ∧
    (∀ (site : CallSite) (fn file : GoString) (now : Time) (v : List Value),
      SiteReturns env site fn file → s.status = .running →
      ∃ body : GoString, AppendedTo [.buffer b] (body ++ ['\n'])
        (SetOutputBuffer (some b) s).world
        (Fatal env site now v (SetOutputBuffer (some b) s)).world) ∧
    (∀ (s1 : State) (calls : List Call),
      (∀ c ∈ calls, c ≠ Call.SetOutputBuffer (some b)) →
      (run env (SetOutputConsole s1) calls).world (.buffer b) = s1.world (.buffer b) ∧
      ∀ b2 : Option Nat, b2 ≠ some b →
        (run env (SetOutputBuffer b2 s1) calls).world (.buffer b) = s1.world (.buffer b)) := by
  have hi := inv_SetOutputBuffer (some b) s (inv_of_reachable hr)
  have hu := usable_SetOutputBuffer env b s
  have hd := destination_SetOutputBuffer b s
  have ho : getWriter (SetOutputBuffer (some b) s).logConfig = .buffer (some b) := by
    simp [SetOutputBuffer, updateLoggerConfig, getWriter, OutputFile,
      OutputConsole, OutputConsoleAndFile, OutputBuffer]
  refine ⟨⟨hd, ?_, ?_, ?_⟩, ?_, ?_, ?_, ?_, ?_⟩
  · rw [hi.errorOut, ho]
  · rw [hi.infoOut, ho]
  · rw [hi.debugOut, ho]
  · intro now v hl
    have h := (info_emits env now v _ hi hu hl).2
    rw [hd] at h
    exact ⟨_, h⟩
  · intro now v hl
    have h := (debug_emits env now v _ hi hu hl).2
    rw [hd] at h
    exact ⟨_, h⟩
  · intro site fn file now v hsite hl
    have h := (error_emits env site fn file now v _ hi hu hsite hl).2
    rw [hd] at h
    exact ⟨_, h⟩
  · intro site fn file now v hsite hrun
    have h := (fatal_emits env site fn file now v _ hi hu hsite hrun).2
    rw [hd] at h
    exact ⟨_, h⟩
  · intro s1 calls hc
    constructor
    · exact stale_run env b calls _
        (stale_of_getWriter b _ (not_mem_getWriter_console b _)) hc
    · intro b2 h2
      exact stale_run env b calls _
        (stale_of_getWriter b _ (not_mem_getWriter_buffer b _ b2 h2)) hc

/-- Witness of C8: a line goes to buffer 0, the destination moves to the
console, and three later emitter calls leave buffer 0 as it was. -/
theorem C8_switch_replaces_target_witness :
    (run sampleEnv
      (SetOutputConsole
        (Info sampleEnv sampleTime [.str "a".toList] (SetOutputBuffer (some 0) (init emptyWorld))))
      [.Info sampleTime [.str "b".toList], .Error sampleSite sampleTime [.str "c".toList],
        .Fatal sampleSite sampleTime [.str "d".toList]]).world (.buffer 0) =
      "[INFO]2024/03/07 09:05:01 a\n".toList :=
  (((C8_switch_replaces_target sampleEnv (init emptyWorld) 0 ⟨emptyWorld, [], rfl⟩).2.2.2.2.2
    (Info sampleEnv sampleTime [.str "a".toList] (SetOutputBuffer (some 0) (init emptyWorld)))
    [.Info sampleTime [.str "b".toList], .Error sampleSite sampleTime [.str "c".toList],
      .Fatal sampleSite sampleTime [.str "d".toList]] (by decide)).1).trans (by decide)

/-- C9 (amended): in every state reached from the default configuration by
setter calls, the mode is one of the four modes and the file handle is
present whenever the mode is File or ConsoleAndFile.  No setter clears a
stored file handle, and no setter other than `SetOutputBuffer` changes the
stored buffer reference: both outlive a change of mode. -/
theorem C9_handles_outlive_mode (env : Env) (w : World) (calls : List Call)
    (_hs : ∀ c ∈ calls, c.isSetter = true) :
    ((run env (init w) calls).logConfig.output = OutputConsole ∨
      (run env (init w) calls).logConfig.output = OutputFile ∨
      (run env (init w) calls).logConfig.output = OutputConsoleAndFile ∨
      (run env (init w) calls).logConfig.output = OutputBuffer) ∧
    ((run env (init w) calls).logConfig.output = OutputFile ∨
      (run env (init w) calls).logConfig.output = OutputConsoleAndFile →
      (run env (init w) calls).logConfig.file ≠ none) ∧
    (∀ c : Call, c.isSetter = true → (run env (init w) calls).logConfig.file ≠ none →
      (exec env (run env (init w) calls) c).logConfig.file ≠ none) ∧
    (∀ c : Call, c.isSetter = true → (∀ b, c ≠ Call.SetOutputBuffer b) →
      (exec env (run env (init w) calls) c).logConfig.buff =
        (run env (init w) calls).logConfig.buff) := by
  have hi := inv_run env calls (init w) (inv_init w)
  exact ⟨hi.mode, hi.fileOpen, fun c _ h => file_kept_exec env _ c h,
    fun c _ h => buff_kept_exec env _ c h⟩

/-- Witness of C9: the buffer reference survives the change to Console. -/
theorem C9_handles_outlive_mode_witness :
    (exec sampleEnv (run sampleEnv (init emptyWorld) [.SetOutputBuffer (some 0)])
      .SetOutputConsole).logConfig.buff =
      (run sampleEnv (init emptyWorld) [.SetOutputBuffer (some 0)]).logConfig.buff :=
  (C9_handles_outlive_mode sampleEnv emptyWorld [.SetOutputBuffer (some 0)]
    (by decide)).2.2.2 .SetOutputConsole rfl (by intro b; exact Call.noConfusion)

/-- C9 as stated fails: after `SetOutputBuffer(b)` and `SetOutputConsole()`
the buffer reference is present while the mode is Console, and after
`SetOutputFile(path)` and `SetOutputBuffer(b)` the file handle is present
while the mode is Buffer. -/
theorem C9_counterexample :
    ((run sampleEnv (init emptyWorld)
        [.SetOutputBuffer (some 0), .SetOutputConsole]).logConfig.buff = some 0 ∧
      (run sampleEnv (init emptyWorld)
        [.SetOutputBuffer (some 0), .SetOutputConsole]).logConfig.output = OutputConsole ∧
      OutputConsole ≠ OutputBuffer) ∧
    ((run sampleEnv (init emptyWorld)
        [.SetOutputFile "out.log".toList, .SetOutputBuffer (some 0)]).logConfig.file =
        some { name := "out.log".toList, id := some 7 } ∧
      (run sampleEnv (init emptyWorld)
        [.SetOutputFile "out.log".toList, .SetOutputBuffer (some 0)]).logConfig.output =
        OutputBuffer ∧
      OutputBuffer ≠ OutputFile ∧ OutputBuffer ≠ OutputConsoleAndFile) := by
  refine ⟨⟨by decide, by decide, by decide⟩, by decide, by decide, by decide, by decide⟩

/-- C3 fails on the code: on the path `/home/josé/main.go` with the token
"/" the text after the last slash is `main.go`, but `shortenName` slices the
rune slice with byte offsets: it panics when the slice has no spare capacity
and returns `ain.go` followed by a zero rune otherwise.  With the two
character token "::" the name `a::b` gives `:b`, and the empty token panics. -/
theorem C3_shortenName_byte_offsets (env : Env) :
    accentPath = "/home/josé/main.go".toList ∧
    shortenName env accentPath "/".toList ≠ .ok "main.go".toList ∧
    (env.runeSlack 18 = 0 →
      shortenName env accentPath "/".toList = .error (.sliceBounds 12 19 18)) ∧
    (0 < env.runeSlack 18 →
      shortenName env accentPath "/".toList = .ok ("ain.go".toList ++ [Char.ofNat 0])) ∧
    shortenName sampleEnv "a::b".toList "::".toList = .ok ":b".toList ∧
    shortenName sampleEnv "ab".toList [] = .error (.sliceBounds 3 2 2) := by
  have hL : LastIndex accentPath "/".toList = 11 := by decide
  have hB : byteLen accentPath = 19 := by decide
  have hN : accentPath.length = 18 := by decide
  have h0 : env.runeSlack 18 = 0 →
      shortenName env accentPath "/".toList = .error (.sliceBounds 12 19 18) := by
    intro h
    unfold shortenName
    simp only [hL, hB]
    simp [toRunes, hN, h, RuneSlice.slice]
    rfl
  have h1 : 0 < env.runeSlack 18 →
      shortenName env accentPath "/".toList = .ok ("ain.go".toList ++ [Char.ofNat 0]) := by
    intro h
    obtain ⟨m, hm⟩ := Nat.exists_eq_succ_of_ne_zero (Nat.pos_iff_ne_zero.mp h)
    unfold shortenName
    simp only [hL, hB]
    simp [toRunes, hN, hm, RuneSlice.slice, RuneSlice.backing,
      RuneSlice.toGoString, Except.map]
    have hc : (19 : Int) ≤ 18 + ((m : Int) + 1) := by omega
    rw [if_pos hc]
    simp [accentPath, List.replicate_succ, List.take]
  refine ⟨by decide, ?_, h0, h1, rfl, rfl⟩
  intro h
  rcases Nat.eq_zero_or_pos (env.runeSlack 18) with hz | hp
  · rw [h0 hz] at h
    exact Except.noConfusion h
  · rw [h1 hp] at h
    have h2 := Except.ok.inj h
    exact absurd h2 (by decide)

/-- C10: on a name of single-byte characters and a single-byte one character
token, the bounds `index+1` and `len(name)` of the slice expression are valid
for the rune slice, `shortenName` returns, and its result is a suffix of the
name without the token (the text after the last occurrence when there is
one).  On the name `é.x`, which has a two byte character before the last dot,
`len(name)` is 4 and the rune slice has 3 elements: the bounds are past its
length, the call panics when the slice has no spare capacity, and never
returns the text `x` after the dot. -/
theorem C10_shortenName_bounds (env : Env) :
    (∀ (name : GoString) (t : Char), (∀ c ∈ name, c.toNat < 128) → t.toNat < 128 →
      (0 ≤ LastIndex name [t] + 1 ∧ LastIndex name [t] + 1 ≤ (byteLen name : Int) ∧
        byteLen name = (toRunes env name).elems.length) ∧
      ∃ r, shortenName env name [t] = .ok r ∧ r <:+ name ∧ t ∉ r ∧
        ∀ pre post, name = pre ++ t :: post → t ∉ post → r = post) ∧
    (accentName = [Char.ofNat 0xe9] ++ '.' :: ['x'] ∧ 1 < runeLen (Char.ofNat 0xe9) ∧
      LastIndex accentName ['.'] + 1 = 3 ∧ byteLen accentName = 4 ∧
      (toRunes env accentName).elems.length = 3 ∧
      ¬ (byteLen accentName ≤ (toRunes env accentName).elems.length) ∧
      (env.runeSlack 3 = 0 →
        shortenName env accentName ['.'] = .error (.sliceBounds 3 4 3)) ∧
      shortenName env accentName ['.'] ≠ .ok ['x']) := by
  refine ⟨fun name t ha _ => shortenName_ascii env name t ha, ?_⟩
  have hL : LastIndex accentName ['.'] = 2 := by decide
  have hB : byteLen accentName = 4 := by decide
  have hN : accentName.length = 3 := by decide
  have h0 : env.runeSlack 3 = 0 →
      shortenName env accentName ['.'] = .error (.sliceBounds 3 4 3) := by
    intro h
    unfold shortenName
    simp only [hL, hB]
    simp [toRunes, hN, h, RuneSlice.slice]
    rfl
  have hV : ¬ (byteLen accentName ≤ accentName.length) := by decide
  refine ⟨rfl, by decide, by decide, hB, hN, hV, h0, ?_⟩
  intro h
  rcases Nat.eq_zero_or_pos (env.runeSlack 3) with hz | hp
  · rw [h0 hz] at h
    exact Except.noConfusion h
  · obtain ⟨m, hm⟩ := Nat.exists_eq_succ_of_ne_zero (Nat.pos_iff_ne_zero.mp hp)
    unfold shortenName at h
    simp only [hL, hB] at h
    simp [toRunes, hN, hm, RuneSlice.slice, RuneSlice.backing,
      RuneSlice.toGoString, Except.map] at h
    have hc : (4 : Int) ≤ 3 + ((m : Int) + 1) := by omega
    rw [if_pos hc] at h
    simp [accentName, List.replicate_succ, List.take] at h

/-- C2 (amended): for every threshold `t` in 0..3, `SetLogLevel(t)` succeeds.
In the state it leaves, when the destination is usable (a buffer that is not
nil in Buffer mode, sinks whose writes succeed, a file that is not the
standard output stream in ConsoleAndFile mode) and, for `Error`, the call
site is one on whose names `shortenName` returns, each of `Error` (level 1),
`Info` (level 2) and `Debug` (level 3), called with any values, appends one
record (header, body, newline) once to every sink of the destination mode
and to no other sink when `t` is at least its level, and changes nothing at
all when `t` is below its level.  The record is exactly one line when the
source path, the values and, for `Error`, the short names hold no newline. -/
theorem C2_threshold_filter (env : Env) (s0 : State) (t : Int) (site : CallSite)
    (fn file : GoString) (now : Time) (v : List Value)
    (hr : Reachable env s0) (hu : Usable env s0) (ht : t = 0 ∨ t = 1 ∨ t = 2 ∨ t = 3) :
    ∃ s, SetLogLevel t s0 = (none, s) ∧ s.logConfig.level = t ∧
      modeSinks s.logConfig = modeSinks s0.logConfig ∧
      (t ≥ LevelError → SiteReturns env site fn file → Emits s (Error env site now v s)
        (recordText env "[ERROR]".toList s.logConfig.flags now 166
          (siteBody fn file site.line v))) ∧
      (t < LevelError → Error env site now v s = s) ∧
      (t ≥ LevelInfo → Emits s (Info env now v s)
        (recordText env "[INFO]".toList s.logConfig.flags now 172 (valuesBody v))) ∧
      (t < LevelInfo → Info env now v s = s) ∧
      (t ≥ LevelDebug → Emits s (Debug env now v s)
        (recordText env "[DEBUG]".toList s.logConfig.flags now 178 (valuesBody v))) ∧
      (t < LevelDebug → Debug env now v s = s) ∧
      ('\n' ∉ env.srcRoot → NewlineFree (v.map Value.format) →
        OneLine (recordText env "[INFO]".toList s.logConfig.flags now 172 (valuesBody v)) ∧
        OneLine (recordText env "[DEBUG]".toList s.logConfig.flags now 178 (valuesBody v)) ∧
        ('\n' ∉ fn → '\n' ∉ file →
          OneLine (recordText env "[ERROR]".toList s.logConfig.flags now 166
            (siteBody fn file site.line v)))) := by
  have hi1 := inv_SetLogLevel t s0 (inv_of_reachable hr)
  have hu1 := usable_SetLogLevel env t s0 hu
  have hd := modeSinks_SetLogLevel t s0
  have hs : SetLogLevel t s0 =
      (none, { s0 with logConfig := { s0.logConfig with level := t } }) := by
    unfold SetLogLevel
    rw [if_neg]
    rcases ht with h | h | h | h <;> subst h <;> decide
  rw [hs] at hi1 hu1 hd
  have hm : ∀ s1 : State, destination s1 = modeSinks s1.logConfig := by
    intro s1
    unfold destination getWriter modeSinks
    split_ifs <;> cases s1.logConfig.file <;> cases s1.logConfig.buff <;> rfl
  refine ⟨_, hs, rfl, hd, ?_, ?_, ?_, ?_, ?_, ?_, ?_⟩
  · intro h hsite
    have h1 := error_emits env site fn file now v _ hi1 hu1 hsite h
    rw [hm] at h1
    exact h1
  · intro h
    unfold Error
    rw [if_neg (not_le.mpr h)]
  · intro h
    have h1 := info_emits env now v _ hi1 hu1 h
    rw [hm] at h1
    exact h1
  · intro h
    unfold Info
    rw [if_neg (not_le.mpr h)]
  · intro h
    have h1 := debug_emits env now v _ hi1 hu1 h
    rw [hm] at h1
    exact h1
  · intro h
    unfold Debug
    rw [if_neg (not_le.mpr h)]
  · intro hroot hv
    refine ⟨oneLine_recordText env _ _ _ _ _ (by decide) hroot (noNewline_valuesBody v hv),
      oneLine_recordText env _ _ _ _ _ (by decide) hroot (noNewline_valuesBody v hv), ?_⟩
    intro h1 h2
    exact oneLine_recordText env _ _ _ _ _ (by decide) hroot
      (noNewline_siteBody fn file site.line v h1 h2 hv)

/-- Witness of C2: the package logs to buffer 0 with threshold Info.  The
theorem gives that `Info("x")` and `Error("x")` each append their record to
buffer 0 alone and that `Debug("x")` changes nothing; evaluating the code
gives the same: the line of `Info` is in the buffer and standard output is
empty. -/
theorem C2_threshold_filter_witness :
    AppendedTo [.buffer 0] "[INFO]2024/03/07 09:05:01 x\n".toList emptyWorld
      (Info sampleEnv sampleTime [.str "x".toList]
        (SetLogLevel 2 (SetOutputBuffer (some 0) (init emptyWorld))).2).world ∧
    AppendedTo [.buffer 0] "[ERROR]2024/03/07 09:05:01 at main[main.go:12] [x]\n".toList
      emptyWorld
      (Error sampleEnv sampleSite sampleTime [.str "x".toList]
        (SetLogLevel 2 (SetOutputBuffer (some 0) (init emptyWorld))).2).world ∧
    Debug sampleEnv sampleTime [.str "x".toList]
      (SetLogLevel 2 (SetOutputBuffer (some 0) (init emptyWorld))).2 =
      (SetLogLevel 2 (SetOutputBuffer (some 0) (init emptyWorld))).2 ∧
    OneLine "[INFO]2024/03/07 09:05:01 x\n".toList ∧
    (Info sampleEnv sampleTime [.str "x".toList]
      (SetLogLevel 2 (SetOutputBuffer (some 0) (init emptyWorld))).2).world (.buffer 0) =
      "[INFO]2024/03/07 09:05:01 x\n".toList ∧
    (Info sampleEnv sampleTime [.str "x".toList]
      (SetLogLevel 2 (SetOutputBuffer (some 0) (init emptyWorld))).2).world .stdout = [] :=
  match C2_threshold_filter sampleEnv (SetOutputBuffer (some 0) (init emptyWorld)) 2 sampleSite
    "main".toList "main.go".toList sampleTime [.str "x".toList]
    ⟨emptyWorld, [.SetOutputBuffer (some 0)], rfl⟩
    (usable_SetOutputBuffer sampleEnv 0 (init emptyWorld)) (by decide) with
  | ⟨s, hs, _, _, hE, _, hI, _, _, hD, hO⟩ => by
    have e : s = (SetLogLevel 2 (SetOutputBuffer (some 0) (init emptyWorld))).2 := by rw [hs]
    subst e
    have e1 : modeSinks (SetLogLevel 2 (SetOutputBuffer (some 0)
        (init emptyWorld))).2.logConfig = [.buffer 0] := by decide
    have e2 : recordText sampleEnv "[INFO]".toList
        (SetLogLevel 2 (SetOutputBuffer (some 0) (init emptyWorld))).2.logConfig.flags sampleTime
        172 (valuesBody [.str "x".toList]) = "[INFO]2024/03/07 09:05:01 x\n".toList := by decide
    have e3 : recordText sampleEnv "[ERROR]".toList
        (SetLogLevel 2 (SetOutputBuffer (some 0) (init emptyWorld))).2.logConfig.flags sampleTime
        166 (siteBody "main".toList "main.go".toList sampleSite.line [.str "x".toList]) =
        "[ERROR]2024/03/07 09:05:01 at main[main.go:12] [x]\n".toList := by decide
    have hI2 := (hI (by decide)).2
    have hE2 := (hE (by decide) sampleSite_returns).2
    have hO2 := (hO (by decide) (by unfold NewlineFree; decide)).1
    rw [e1, e2] at hI2
    rw [e1, e3] at hE2
    rw [e2] at hO2
    exact ⟨hI2, hE2, hD (by decide), hO2, by decide, by decide⟩

/-- C2 as stated fails.  `Info("x\ny")` with threshold Debug appends a text
of two lines to standard output, so no single line accounts for what was
appended.  After `SetOutputBuffer(nil)` `Info` panics and appends nothing.
On a full disk, after `SetOutputConsoleAndFile`, the write to the file fails
and `Info` appends nothing to the file nor to standard output. -/
theorem C2_counterexample :
    ((SetLogLevel 3 (init emptyWorld)).1 = none ∧
      (Info sampleEnv sampleTime [.str "x\ny".toList]
        (SetLogLevel 3 (init emptyWorld)).2).world .stdout =
        "[INFO]2024/03/07 09:05:01 x\ny\n".toList ∧
      ¬ OneLine "[INFO]2024/03/07 09:05:01 x\ny\n".toList ∧
      ¬ ∃ p, OneLine p ∧
        Emits (SetLogLevel 3 (init emptyWorld)).2
          (Info sampleEnv sampleTime [.str "x\ny".toList] (SetLogLevel 3 (init emptyWorld)).2) p) ∧
    ((Info sampleEnv sampleTime [.str "x".toList]
        (SetOutputBuffer none (init emptyWorld))).status = .panicked .nilDereference ∧
      (Info sampleEnv sampleTime [.str "x".toList]
        (SetOutputBuffer none (init emptyWorld))).world = emptyWorld) ∧
    ((SetOutputConsoleAndFile fullEnv "/dev/full".toList (init emptyWorld)).1 = none ∧
      (Info fullEnv sampleTime [.str "x".toList]
        (SetOutputConsoleAndFile fullEnv "/dev/full".toList (init emptyWorld)).2).world
        .stdout = [] ∧
      (Info fullEnv sampleTime [.str "x".toList]
        (SetOutputConsoleAndFile fullEnv "/dev/full".toList (init emptyWorld)).2).world
        (.file 9) = []) := by
  refine ⟨⟨rfl, by decide, by unfold OneLine; decide, ?_⟩, ⟨rfl, rfl⟩, rfl, by decide, by decide⟩
  rintro ⟨p, hp, -, ha⟩
  have h := ha .stdout
  have e : p = "[INFO]2024/03/07 09:05:01 x\ny\n".toList := by
    have h2 : (Info sampleEnv sampleTime [.str "x\ny".toList]
        (SetLogLevel 3 (init emptyWorld)).2).world .stdout =
        "[INFO]2024/03/07 09:05:01 x\ny\n".toList := by decide
    rw [h2] at h
    have h3 : (if Sink.stdout ∈ modeSinks (SetLogLevel 3 (init emptyWorld)).2.logConfig then
        (SetLogLevel 3 (init emptyWorld)).2.world .stdout ++ p
        else (SetLogLevel 3 (init emptyWorld)).2.world .stdout) = p := by
      rw [if_pos (by decide)]
      rfl
    rw [h3] at h
    exact h.symm
  rw [e] at hp
  exact absurd hp (by unfold OneLine; decide)

/-- C5 (amended): `Fatal` is never filtered.  In every running state the
program reaches, whatever the threshold (0, 1, 2 or 3), when the destination
is usable (a buffer that is not nil in Buffer mode, sinks whose writes
succeed, a file that is not the standard output stream in ConsoleAndFile
mode) and the call site is one on whose names `shortenName` returns, `Fatal`
appends one record (header, call site, bracketed values, newline) once to
every sink of the destination mode and to no other sink, and exits the
process with status 1; the record is exactly one line when the source path,
the short names and the values hold no newline.  When the flags ask for no
file annotation (neither `Lshortfile` nor `Llongfile`), `Error` from the same
call site with the same values and the same clock reading appends that very
record if the threshold is at least Error; at threshold Fatal, `Error`
changes nothing. -/
theorem C5_fatal_not_filtered (env : Env) (s : State) (site : CallSite) (fn file : GoString)
    (now : Time) (v : List Value)
    (hr : Reachable env s) (hrun : s.status = .running) (hu : Usable env s)
    (hsite : SiteReturns env site fn file) :
    (s.logConfig.level = 0 ∨ s.logConfig.level = 1 ∨ s.logConfig.level = 2 ∨
      s.logConfig.level = 3) ∧
    (Fatal env site now v s).status = .exited 1 ∧
    AppendedTo (modeSinks s.logConfig)
      (recordText env "[ERROR]".toList s.logConfig.flags now 158 (siteBody fn file site.line v))
      s.world (Fatal env site now v s).world ∧
    ('\n' ∉ env.srcRoot → '\n' ∉ fn → '\n' ∉ file → NewlineFree (v.map Value.format) →
      OneLine (recordText env "[ERROR]".toList s.logConfig.flags now 158
        (siteBody fn file site.line v))) ∧
    (NoFileFlags s.logConfig.flags → s.logConfig.level ≥ LevelError →
      AppendedTo (modeSinks s.logConfig)
        (recordText env "[ERROR]".toList s.logConfig.flags now 158
          (siteBody fn file site.line v))
        s.world (Error env site now v s).world) ∧
    (s.logConfig.level < LevelError → Error env site now v s = s) := by
  have hi := inv_of_reachable hr
  have hm : ∀ s1 : State, destination s1 = modeSinks s1.logConfig := by
    intro s1
    unfold destination getWriter modeSinks
    split_ifs <;> cases s1.logConfig.file <;> cases s1.logConfig.buff <;> rfl
  obtain ⟨h1, h2⟩ := fatal_emits env site fn file now v s hi hu hsite hrun
  rw [hm] at h2
  refine ⟨hi.level, h1, h2, ?_, ?_, ?_⟩
  · intro hroot hfn hfile hv
    exact oneLine_recordText env _ _ _ _ _ (by decide) hroot
      (noNewline_siteBody fn file site.line v hfn hfile hv)
  · intro hf hl
    have h3 := (error_emits env site fn file now v s hi hu hsite hl).2
    rw [hm, recordText_no_file env _ _ now 166 158 _ hf] at h3
    exact h3
  · intro hl
    unfold Error
    rw [if_neg (not_le.mpr hl)]

/-- Witness of C5, on the package logging to buffer 0.  With threshold
Fatal the theorem gives that `Fatal("oops")` appends its record to buffer 0
alone and exits with status 1 while `Error("oops")` is filtered; with the
default threshold it gives that `Error` appends the record of `Fatal`.
Evaluating the code gives the same line in the buffer, for both. -/
theorem C5_fatal_not_filtered_witness :
    AppendedTo [.buffer 0] "[ERROR]2024/03/07 09:05:01 at main[main.go:12] [oops]\n".toList
      emptyWorld
      (Fatal sampleEnv sampleSite sampleTime [.str "oops".toList]
        (run sampleEnv (init emptyWorld) [.SetOutputBuffer (some 0), .SetLogLevel 0])).world ∧
    (Fatal sampleEnv sampleSite sampleTime [.str "oops".toList]
      (run sampleEnv (init emptyWorld) [.SetOutputBuffer (some 0), .SetLogLevel 0])).status =
        .exited 1 ∧
    Error sampleEnv sampleSite sampleTime [.str "oops".toList]
      (run sampleEnv (init emptyWorld) [.SetOutputBuffer (some 0), .SetLogLevel 0]) =
      run sampleEnv (init emptyWorld) [.SetOutputBuffer (some 0), .SetLogLevel 0] ∧
    AppendedTo [.buffer 0] "[ERROR]2024/03/07 09:05:01 at main[main.go:12] [oops]\n".toList
      emptyWorld
      (Error sampleEnv sampleSite sampleTime [.str "oops".toList]
        (run sampleEnv (init emptyWorld) [.SetOutputBuffer (some 0)])).world ∧
    OneLine "[ERROR]2024/03/07 09:05:01 at main[main.go:12] [oops]\n".toList ∧
    (Fatal sampleEnv sampleSite sampleTime [.str "oops".toList]
      (run sampleEnv (init emptyWorld) [.SetOutputBuffer (some 0), .SetLogLevel 0])).world
        (.buffer 0) = "[ERROR]2024/03/07 09:05:01 at main[main.go:12] [oops]\n".toList ∧
    (Error sampleEnv sampleSite sampleTime [.str "oops".toList]
      (run sampleEnv (init emptyWorld) [.SetOutputBuffer (some 0)])).world (.buffer 0) =
      "[ERROR]2024/03/07 09:05:01 at main[main.go:12] [oops]\n".toList :=
  match C5_fatal_not_filtered sampleEnv
      (run sampleEnv (init emptyWorld) [.SetOutputBuffer (some 0), .SetLogLevel 0]) sampleSite
      "main".toList "main.go".toList sampleTime [.str "oops".toList]
      ⟨emptyWorld, [.SetOutputBuffer (some 0), .SetLogLevel 0], rfl⟩ rfl
      (usable_sample _ (fun _ => by decide) (fun h => absurd h (by decide))) sampleSite_returns,
    C5_fatal_not_filtered sampleEnv
      (run sampleEnv (init emptyWorld) [.SetOutputBuffer (some 0)]) sampleSite
      "main".toList "main.go".toList sampleTime [.str "oops".toList]
      ⟨emptyWorld, [.SetOutputBuffer (some 0)], rfl⟩ rfl
      (usable_sample _ (fun _ => by decide) (fun h => absurd h (by decide)))
      sampleSite_returns with
  | ⟨_, h1, h2, h3, _, h4⟩, ⟨_, _, _, _, g3, _⟩ => by
    have e1 : modeSinks (run sampleEnv (init emptyWorld)
        [.SetOutputBuffer (some 0), .SetLogLevel 0]).logConfig = [.buffer 0] := by decide
    have e2 : recordText sampleEnv "[ERROR]".toList
        (run sampleEnv (init emptyWorld)
          [.SetOutputBuffer (some 0), .SetLogLevel 0]).logConfig.flags sampleTime 158
        (siteBody "main".toList "main.go".toList sampleSite.line [.str "oops".toList]) =
        "[ERROR]2024/03/07 09:05:01 at main[main.go:12] [oops]\n".toList := by decide
    have f1 : modeSinks (run sampleEnv (init emptyWorld)
        [.SetOutputBuffer (some 0)]).logConfig = [.buffer 0] := by decide
    have f2 : recordText sampleEnv "[ERROR]".toList
        (run sampleEnv (init emptyWorld) [.SetOutputBuffer (some 0)]).logConfig.flags
        sampleTime 158
        (siteBody "main".toList "main.go".toList sampleSite.line [.str "oops".toList]) =
        "[ERROR]2024/03/07 09:05:01 at main[main.go:12] [oops]\n".toList := by decide
    have g := g3 (by unfold NoFileFlags; decide) (by decide)
    have o := h3 (by decide) (by decide) (by decide) (by unfold NewlineFree; decide)
    rw [e1, e2] at h2
    rw [e2] at o
    rw [f1, f2] at g
    exact ⟨h2, h1, h4 (by decide), g, o, by decide, by decide⟩

/-- C5 as stated fails: after `SetFlags(log.Lshortfile)`, with threshold
Debug, the line of `Fatal` names logger.go:158 and the line of `Error` from
the same call site with the same values names logger.go:166. -/
theorem C5_counterexample :
    Reachable sampleEnv shortfileState ∧
    shortfileState.logConfig.level ≥ LevelError ∧
    (Fatal sampleEnv sampleSite sampleTime [.str "oops".toList] shortfileState).world .stdout =
      "[ERROR]logger.go:158: at main[main.go:12] [oops]\n".toList ∧
    (Error sampleEnv sampleSite sampleTime [.str "oops".toList] shortfileState).world .stdout =
      "[ERROR]logger.go:166: at main[main.go:12] [oops]\n".toList ∧
    (Fatal sampleEnv sampleSite sampleTime [.str "oops".toList] shortfileState).world .stdout ≠
      (Error sampleEnv sampleSite sampleTime [.str "oops".toList] shortfileState).world .stdout := by
  refine ⟨reachable_shortfileState, by decide, by decide, by decide, by decide⟩

/-- C6 (amended): with threshold at least Error and the flags `Ldate|Ltime`,
when the destination is usable (a buffer that is not nil in Buffer mode,
sinks whose writes succeed, a file that is not the standard output stream in
ConsoleAndFile mode), a call of `Error` from a call site (F, P, n) on whose
names `shortenName` returns `fn` and `file` appends, once to every sink of
the destination mode and to no other sink, the line made of the tag
"[ERROR]", the date, a space, the time, " at ", `fn`, "[", `file`, ":", the
decimal line number, "] [", the values formatted and joined by single spaces,
"]" and a newline. -/
theorem C6_error_line (env : Env) (s : State) (site : CallSite) (fn file : GoString)
    (now : Time) (v : List Value)
    (hr : Reachable env s) (hu : Usable env s)
    (hl : s.logConfig.level ≥ LevelError)
    (hf : s.logConfig.flags = Int.lor Ldate Ltime)
    (hsite : SiteReturns env site fn file) :
    (Error env site now v s).status = s.status ∧
    AppendedTo (modeSinks s.logConfig)
      ("[ERROR]".toList ++ dateText now.loc ++ " ".toList ++ timeText now.loc ++ " at ".toList
        ++ fn ++ "[".toList ++ file ++ ":".toList ++ (toString site.line).toList ++ "] [".toList
        ++ joinSpaces (v.map Value.format) ++ "]".toList ++ "\n".toList)
      s.world (Error env site now v s).world := by
  have hi := inv_of_reachable hr
  have hm : ∀ s1 : State, destination s1 = modeSinks s1.logConfig := by
    intro s1
    unfold destination getWriter modeSinks
    split_ifs <;> cases s1.logConfig.file <;> cases s1.logConfig.buff <;> rfl
  obtain ⟨h1, h2⟩ := error_emits env site fn file now v s hi hu hsite hl
  rw [hm] at h2
  refine ⟨h1, ?_⟩
  have e : recordText env "[ERROR]".toList s.logConfig.flags now 166
        (siteBody fn file site.line v) =
      "[ERROR]".toList ++ dateText now.loc ++ " ".toList ++ timeText now.loc ++ " at ".toList
        ++ fn ++ "[".toList ++ file ++ ":".toList ++ (toString site.line).toList ++ "] [".toList
        ++ joinSpaces (v.map Value.format) ++ "]".toList ++ "\n".toList := by
    rw [recordText_stamp_only env _ _ _ _ _ (by rw [hf]; exact stampFlagsOnly_date_time), hf,
      stamp_date_time]
    simp [siteBody]
  rw [← e]
  exact h2

/-- Witness of C6: `Error("test message")` on the package logging to buffer
0, with the default flags `Ldate|Ltime` and threshold Debug.  The theorem
gives that the line is appended to buffer 0 alone; evaluating the code gives
the same line in the buffer and nothing on standard output. -/
theorem C6_error_line_witness :
    AppendedTo [.buffer 0]
      "[ERROR]2024/03/07 09:05:01 at main[main.go:12] [test message]\n".toList emptyWorld
      (Error sampleEnv sampleSite sampleTime [.str "test message".toList]
        (SetOutputBuffer (some 0) (init emptyWorld))).world ∧
    (Error sampleEnv sampleSite sampleTime [.str "test message".toList]
      (SetOutputBuffer (some 0) (init emptyWorld))).world (.buffer 0) =
      "[ERROR]2024/03/07 09:05:01 at main[main.go:12] [test message]\n".toList ∧
    (Error sampleEnv sampleSite sampleTime [.str "test message".toList]
      (SetOutputBuffer (some 0) (init emptyWorld))).world .stdout = [] :=
  match C6_error_line sampleEnv (SetOutputBuffer (some 0) (init emptyWorld)) sampleSite
    "main".toList "main.go".toList sampleTime [.str "test message".toList]
    ⟨emptyWorld, [.SetOutputBuffer (some 0)], rfl⟩
    (usable_SetOutputBuffer sampleEnv 0 (init emptyWorld)) (by decide) rfl
    sampleSite_returns with
  | ⟨_, h⟩ => by
    have e1 : modeSinks (SetOutputBuffer (some 0) (init emptyWorld)).logConfig =
        [.buffer 0] := by decide
    have e2 : "[ERROR]".toList ++ dateText sampleTime.loc ++ " ".toList ++
        timeText sampleTime.loc ++ " at ".toList ++ "main".toList ++ "[".toList ++
        "main.go".toList ++ ":".toList ++ (toString sampleSite.line).toList ++ "] [".toList ++
        joinSpaces ([Value.str "test message".toList].map Value.format) ++ "]".toList ++
        "\n".toList =
        "[ERROR]2024/03/07 09:05:01 at main[main.go:12] [test message]\n".toList := by decide
    rw [e1, e2] at h
    exact ⟨h, by decide, by decide⟩

/-- C6 as stated fails.  After `SetOutputBuffer(nil)`, `Error` panics in the
write and appends nothing.  On a full disk, after `SetOutputFile`, the write
fails and nothing is appended.  From a call site whose file path holds 40
characters in 41 bytes, `Error` panics in `shortenName` (slice bounds 37:41
on a slice of capacity 40) before it writes anything. -/
theorem C6_counterexample :
    ((SetOutputBuffer none (init emptyWorld)).logConfig.level ≥ LevelError ∧
      (SetOutputBuffer none (init emptyWorld)).logConfig.flags = Int.lor Ldate Ltime ∧
      (Error sampleEnv sampleSite sampleTime [.str "test message".toList]
        (SetOutputBuffer none (init emptyWorld))).status = .panicked .nilDereference ∧
      (Error sampleEnv sampleSite sampleTime [.str "test message".toList]
        (SetOutputBuffer none (init emptyWorld))).world = emptyWorld) ∧
    ((SetOutputFile fullEnv "/dev/full".toList (init emptyWorld)).1 = none ∧
      (Error fullEnv sampleSite sampleTime [.str "test message".toList]
        (SetOutputFile fullEnv "/dev/full".toList (init emptyWorld)).2).world (.file 9) = [] ∧
      (Error fullEnv sampleSite sampleTime [.str "test message".toList]
        (SetOutputFile fullEnv "/dev/full".toList (init emptyWorld)).2).world .stdout = []) ∧
    (longSite.file.length = 40 ∧ byteLen longSite.file = 41 ∧
      (init emptyWorld).logConfig.level ≥ LevelError ∧
      (init emptyWorld).logConfig.flags = Int.lor Ldate Ltime ∧
      (Error sampleEnv longSite sampleTime [.str "test message".toList]
        (init emptyWorld)).status = .panicked (.sliceBounds 37 41 40) ∧
      (Error sampleEnv longSite sampleTime [.str "test message".toList]
        (init emptyWorld)).world = emptyWorld) := by
  refine ⟨⟨by decide, rfl, rfl, rfl⟩, ⟨rfl, by decide, by decide⟩,
    by decide, by decide, by decide, rfl, rfl, rfl⟩

/-- C7 (amended): when the flags hold time stamp bits only (no `Lshortfile`,
`Llongfile` or `Lmsgprefix`) and the destination is usable (a buffer that is
not nil in Buffer mode, sinks whose writes succeed, a file that is not the
standard output stream in ConsoleAndFile mode), `Info` with threshold at
least Info and `Debug` with threshold at least Debug append, once to every
sink of the destination mode and to no other sink, the line made of the tag
("[INFO]" or "[DEBUG]"), the date and time text the flags select, the values
formatted and separated by single spaces, and a newline; no call site, no
brackets. -/
theorem C7_info_debug_line (env : Env) (s : State) (now : Time) (v : List Value)
    (hr : Reachable env s) (hu : Usable env s) (hf : StampFlagsOnly s.logConfig.flags) :
    (s.logConfig.level ≥ LevelInfo →
      (Info env now v s).status = s.status ∧
      AppendedTo (modeSinks s.logConfig)
        ("[INFO]".toList ++ stamp s.logConfig.flags now ++ joinSpaces (v.map Value.format)
          ++ "\n".toList)
        s.world (Info env now v s).world) ∧
    (s.logConfig.level ≥ LevelDebug →
      (Debug env now v s).status = s.status ∧
      AppendedTo (modeSinks s.logConfig)
        ("[DEBUG]".toList ++ stamp s.logConfig.flags now ++ joinSpaces (v.map Value.format)
          ++ "\n".toList)
        s.world (Debug env now v s).world) := by
  have hi := inv_of_reachable hr
  have hm : ∀ s1 : State, destination s1 = modeSinks s1.logConfig := by
    intro s1
    unfold destination getWriter modeSinks
    split_ifs <;> cases s1.logConfig.file <;> cases s1.logConfig.buff <;> rfl
  constructor
  · intro hl
    have h := info_emits env now v s hi hu hl
    rw [hm, recordText_stamp_only env _ _ _ _ _ hf] at h
    exact h
  · intro hl
    have h := debug_emits env now v s hi hu hl
    rw [hm, recordText_stamp_only env _ _ _ _ _ hf] at h
    exact h

/-- Witness of C7: `Info("test message", 4)` and `Debug("test message", 3)`
on the package logging to buffer 0 (flags `Ldate|Ltime`, threshold Debug).
The theorem gives that each line is appended to buffer 0 alone; evaluating
the code gives the same line of `Info` in the buffer and nothing on standard
output. -/
theorem C7_info_debug_line_witness :
    AppendedTo [.buffer 0] "[INFO]2024/03/07 09:05:01 test message 4\n".toList emptyWorld
      (Info sampleEnv sampleTime [.str "test message".toList, .int 4]
        (SetOutputBuffer (some 0) (init emptyWorld))).world ∧
    AppendedTo [.buffer 0] "[DEBUG]2024/03/07 09:05:01 test message 3\n".toList emptyWorld
      (Debug sampleEnv sampleTime [.str "test message".toList, .int 3]
        (SetOutputBuffer (some 0) (init emptyWorld))).world ∧
    (Info sampleEnv sampleTime [.str "test message".toList, .int 4]
      (SetOutputBuffer (some 0) (init emptyWorld))).world (.buffer 0) =
      "[INFO]2024/03/07 09:05:01 test message 4\n".toList ∧
    (Info sampleEnv sampleTime [.str "test message".toList, .int 4]
      (SetOutputBuffer (some 0) (init emptyWorld))).world .stdout = [] :=
  match C7_info_debug_line sampleEnv (SetOutputBuffer (some 0) (init emptyWorld)) sampleTime
      [.str "test message".toList, .int 4] ⟨emptyWorld, [.SetOutputBuffer (some 0)], rfl⟩
      (usable_SetOutputBuffer sampleEnv 0 (init emptyWorld)) stampFlagsOnly_date_time,
    C7_info_debug_line sampleEnv (SetOutputBuffer (some 0) (init emptyWorld)) sampleTime
      [.str "test message".toList, .int 3] ⟨emptyWorld, [.SetOutputBuffer (some 0)], rfl⟩
      (usable_SetOutputBuffer sampleEnv 0 (init emptyWorld)) stampFlagsOnly_date_time with
  | ⟨hI, _⟩, ⟨_, hD⟩ => by
    have e1 : modeSinks (SetOutputBuffer (some 0) (init emptyWorld)).logConfig =
        [.buffer 0] := by decide
    have e2 : "[INFO]".toList ++
        stamp (SetOutputBuffer (some 0) (init emptyWorld)).logConfig.flags sampleTime ++
        joinSpaces ([Value.str "test message".toList, Value.int 4].map Value.format) ++
        "\n".toList = "[INFO]2024/03/07 09:05:01 test message 4\n".toList := by decide
    have e3 : "[DEBUG]".toList ++
        stamp (SetOutputBuffer (some 0) (init emptyWorld)).logConfig.flags sampleTime ++
        joinSpaces ([Value.str "test message".toList, Value.int 3].map Value.format) ++
        "\n".toList = "[DEBUG]2024/03/07 09:05:01 test message 3\n".toList := by decide
    have hI2 := (hI (by decide)).2
    have hD2 := (hD (by decide)).2
    rw [e1, e2] at hI2
    rw [e1, e3] at hD2
    exact ⟨hI2, hD2, by decide, by decide⟩

/-- C7 as stated fails.  After `SetFlags(log.Lshortfile)` the line `Info`
writes carries "logger.go:172: " between the tag and the values, so it is not
the tag, the date and time text of the flags, and then only the values.
After `SetOutputBuffer(nil)` `Info` panics and appends nothing; on a full
disk, after `SetOutputFile`, with the flags 0, the write fails and nothing is
appended. -/
theorem C7_counterexample :
    (Reachable sampleEnv shortfileState ∧
      shortfileState.logConfig.level ≥ LevelInfo ∧
      (Info sampleEnv sampleTime [.str "test message".toList, .int 4] shortfileState).world
          .stdout = "[INFO]logger.go:172: test message 4\n".toList ∧
      ¬ AppendedTo (modeSinks shortfileState.logConfig)
          ("[INFO]".toList ++ stamp shortfileState.logConfig.flags sampleTime ++
            joinSpaces ([Value.str "test message".toList, Value.int 4].map Value.format)
            ++ "\n".toList)
          shortfileState.world
          (Info sampleEnv sampleTime [.str "test message".toList, .int 4]
            shortfileState).world) ∧
    ((Info sampleEnv sampleTime [.str "test message".toList, .int 4]
        (SetOutputBuffer none (init emptyWorld))).status = .panicked .nilDereference ∧
      (Info sampleEnv sampleTime [.str "test message".toList, .int 4]
        (SetOutputBuffer none (init emptyWorld))).world = emptyWorld) ∧
    ((SetOutputFile fullEnv "/dev/full".toList (SetFlags 0 (init emptyWorld))).1 = none ∧
      (Info fullEnv sampleTime [.str "test message".toList, .int 4]
        (SetOutputFile fullEnv "/dev/full".toList (SetFlags 0 (init emptyWorld))).2).world
        (.file 9) = []) := by
  refine ⟨⟨reachable_shortfileState, by decide, by decide, ?_⟩, ⟨rfl, rfl⟩, rfl, by decide⟩
  intro h
  exact absurd (h .stdout) (by decide)

end Gologger
